import Mathlib

/-!
# Verification of the Compass travel-planner pipeline

Shallow embedding of the geo-clustering / scheduling / budgeting pipeline of
the Compass travel planner (TypeScript backend), together with proofs and
refutations of the specification's testable properties.

Conventions of the embedding:
* JavaScript numbers carrying money are modelled as `ℚ`; minute counters in the
  scheduler as `ℤ`; geographic coordinates as `ℝ` (the haversine distance uses
  transcendental functions, so the distance-dependent definitions are
  `noncomputable`; every branch condition that a concrete evaluation in this
  file reaches is nevertheless kernel-reducible).
* `Math.round` is `round : ℚ → ℤ` / `round : ℝ → ℤ` (Mathlib's `round` is
  ⌊x + 1/2⌋, which agrees with JavaScript's `Math.round` on all inputs,
  including the half-way ties that round towards +∞).
* JavaScript `x || y` on numbers treats `0` as falsy; the embeddings of
  `estimatedCost || …`, `priceLevel || 2`, `durations[t] || 45` and
  `baseCosts[t] || 15` reproduce that (a present but zero value falls through
  to the fallback).
* `Array.prototype.sort` is stable (ECMAScript requirement); it is embedded as
  an insertion sort that places an element before the first strictly
  worse-compared element, which is the unique stable sort for the comparator.
* JS `Set` iteration order is insertion order; sets of objects are modelled as
  lists (object identity = list position).
-/

namespace Compass

/-- Geographic coordinate pair (`{lat, lng}` in the source). -/
structure Coord where
  lat : ℝ
  lng : ℝ

/-- The `Location['type']` union from `types/index.ts`. -/
inductive LocationType
  | restaurant
  | attraction
  | activity
  | accommodation
  | viewpoint
  | market
  | temple
  | cafe
  | other
deriving DecidableEq

/-- The fields of `Location` (types/index.ts) that the clustering / budgeting /
scheduling pipeline reads. Display-only fields (`rating`, `openingHours`,
`photos`, `source`, `vibeScore`, `currency`) are omitted; no claim mentions
them. -/
structure Location where
  id : String
  name : String
  address : Option String
  coordinates : Option Coord
  type : LocationType
  priceLevel : Option ℕ
  estimatedCost : Option ℚ
  verified : Bool

/-- `TripPreferences` from types/index.ts. `budget` is the single flat trip
budget the backend parses from the upload form (`req.body.budget`). -/
structure TripPreferences where
  budget : ℚ
  currency : String
  companions : String
  travelStyle : List String
  startDate : Option String
  endDate : Option String
  startTime : Option String
  endTime : Option String

/-- `ClusterGroup` from types/index.ts. -/
structure ClusterGroup where
  id : String
  name : String
  centroid : Coord
  locations : List Location
  suggestedDuration : ℕ

/-- List of ids of a location list; used throughout the clustering proofs. -/
def idsOf (ls : List Location) : List String := ls.map Location.id

/-- `Math.atan2` restricted to the quadrant conventions of the IEEE function
(the haversine code only ever calls it with a non-negative second argument). -/
noncomputable def atan2 (y x : ℝ) : ℝ :=
  if 0 < x then Real.arctan (y / x)
  else if x < 0 ∧ 0 ≤ y then Real.arctan (y / x) + Real.pi
  else if x < 0 then Real.arctan (y / x) - Real.pi
  else if 0 < y then Real.pi / 2
  else if y < 0 then -(Real.pi / 2)
  else 0

/-- Degrees to radians (`toRad` in clusteringAgent.ts; inlined as
`* Math.PI / 180` in timeAgent.ts). -/
noncomputable def toRad (deg : ℝ) : ℝ := deg * (Real.pi / 180)

/-- `haversineDistance` — identical formula in clusteringAgent.ts and
timeAgent.ts: great-circle distance, Earth radius 6371 km. -/
noncomputable def haversineDistance (c1 c2 : Coord) : ℝ :=
  let dLat := toRad (c2.lat - c1.lat)
  let dLon := toRad (c2.lng - c1.lng)
  let a := Real.sin (dLat / 2) * Real.sin (dLat / 2) +
    Real.cos (toRad c1.lat) * Real.cos (toRad c2.lat) *
    (Real.sin (dLon / 2) * Real.sin (dLon / 2))
  let c := 2 * atan2 (Real.sqrt a) (Real.sqrt (1 - a))
  6371 * c

namespace ClusteringAgent

/-- `ClusteringAgent.estimateDuration` (visit minutes; note viewpoint is 30
here, unlike the TimeAgent table). `durations[type] || 45`: the accommodation
entry 0 is falsy in JS, so it falls through to 45. -/
def estimateDuration (l : Location) : ℕ :=
  let d : ℕ :=
    match l.type with
    | .restaurant => 75
    | .attraction => 90
    | .activity => 120
    | .accommodation => 0
    | .viewpoint => 30
    | .market => 60
    | .temple => 60
    | .cafe => 45
    | .other => 45
  if d = 0 then 45 else d

/-- `ClusteringAgent.generateClusterName`. -/
def generateClusterName (locations : List Location) : String :=
  match locations with
  | [] => "Unknown Area"
  | first :: _ =>
    let address := first.address.getD first.name
    let parts := ((address.data.splitOn ',').map fun cs => (String.mk cs).trim)
    if parts.length > 2 then parts.getD 1 ""
    else String.intercalate " " (((first.name.data.splitOn ' ').map String.mk).take 2) ++ " Area"

/-- `ClusteringAgent.calculateCentroid`: arithmetic mean of the
coordinate-bearing members; hardcoded `{lat: 0, lng: 0}` when there are none. -/
noncomputable def calculateCentroid (locations : List Location) : Coord :=
  let validCoords := locations.filterMap Location.coordinates
  if validCoords.length = 0 then ⟨0, 0⟩
  else
    let sum := validCoords.foldl (fun acc c => Coord.mk (acc.lat + c.lat) (acc.lng + c.lng)) ⟨0, 0⟩
    ⟨sum.lat / validCoords.length, sum.lng / validCoords.length⟩

/-- Inner loop of `clusterByProximity`: scan the whole location list and gather
every not-yet-assigned coordinate-bearing location within 3 km of the seed's
coordinates, threading the `assigned` id set. -/
noncomputable def gatherNearby (scoord : Coord) :
    List Location → List String → List Location × List String
  | [], assigned => ([], assigned)
  | other :: rest, assigned =>
    if assigned.contains other.id then gatherNearby scoord rest assigned
    else
      match other.coordinates with
      | none => gatherNearby scoord rest assigned
      | some oc =>
        if haversineDistance scoord oc ≤ 3 then
          let res := gatherNearby scoord rest (other.id :: assigned)
          (other :: res.1, res.2)
        else gatherNearby scoord rest assigned

/-- Outer loop of `clusterByProximity`: each unassigned coordinate-bearing
location seeds a cluster, whose membership is gathered by `gatherNearby` from
the full list. The cluster record is built exactly as in the source: the name
from the first member, the centroid recomputed from the final membership, the
suggested duration summed over members. -/
noncomputable def clusterLoop (all : List Location) :
    List Location → List String → ℕ → List ClusterGroup
  | [], _, _ => []
  | l :: rest, assigned, idx =>
    if assigned.contains l.id then clusterLoop all rest assigned idx
    else
      match l.coordinates with
      | none => clusterLoop all rest assigned idx
      | some lc =>
        let res := gatherNearby lc all (l.id :: assigned)
        let members := l :: res.1
        { id := "cluster-" ++ toString (idx + 1)
          name := generateClusterName members
          centroid := calculateCentroid members
          locations := members
          suggestedDuration := (members.map estimateDuration).sum } ::
          clusterLoop all rest res.2 (idx + 1)

/-- `ClusteringAgent.clusterByProximity` with the hardcoded
`CLUSTER_RADIUS_KM = 3`. -/
noncomputable def clusterByProximity (locations : List Location) : List ClusterGroup :=
  clusterLoop locations locations [] 0

/-- One scan of the `remaining` set in `optimizeClusterOrder`, keeping the
index and distance of the best candidate so far (`nearestDist` starts at
`Infinity`, so the first coordinate-bearing candidate is always accepted;
strict `<` means ties keep the earliest candidate). -/
noncomputable def nearestScan (ccoord : Coord) :
    List Location → ℕ → Option (ℕ × ℝ) → Option (ℕ × ℝ)
  | [], _, best => best
  | loc :: rest, i, best =>
    match loc.coordinates with
    | none => nearestScan ccoord rest (i + 1) best
    | some lc =>
      let d := haversineDistance ccoord lc
      match best with
      | none => nearestScan ccoord rest (i + 1) (some (i, d))
      | some (bi, bd) =>
        if d < bd then nearestScan ccoord rest (i + 1) (some (i, d))
        else nearestScan ccoord rest (i + 1) (some (bi, bd))

/-- Index (into `remaining`) of the nearest coordinate-bearing location to
`current`, or `none` when `current` has no coordinates or no candidate does. -/
noncomputable def findNearestIdx (current : Location) (remaining : List Location) : Option ℕ :=
  match current.coordinates with
  | none => none
  | some cc => (nearestScan cc remaining 0 none).map Prod.fst

theorem nearestScan_some_lt (ccoord : Coord) :
    ∀ (l : List Location) (i : ℕ) (best : Option (ℕ × ℝ)) (j : ℕ) (d : ℝ),
      (∀ bi bd, best = some (bi, bd) → bi < i) →
      nearestScan ccoord l i best = some (j, d) → j < i + l.length := by
  intro l
  induction l with
  | nil =>
    intro i best j d hb heq
    simp only [nearestScan] at heq
    simpa using hb j d heq
  | cons loc rest ih =>
    intro i best j d hb heq
    simp only [nearestScan] at heq
    cases hc : loc.coordinates with
    | none =>
      rw [hc] at heq
      have := ih (i + 1) best j d (fun bi bd h => Nat.lt_succ_of_lt (hb bi bd h)) heq
      simpa [Nat.add_assoc, Nat.add_comm 1] using this
    | some lc =>
      rw [hc] at heq
      cases best with
      | none =>
        simp only at heq
        have := ih (i + 1) (some (i, haversineDistance ccoord lc)) j d
          (by intro bi bd h; cases h; omega) heq
        simp only [List.length_cons]
        omega
      | some p =>
        obtain ⟨bi, bd⟩ := p
        simp only at heq
        by_cases hlt : haversineDistance ccoord lc < bd
        · rw [if_pos hlt] at heq
          have := ih (i + 1) (some (i, haversineDistance ccoord lc)) j d
            (by intro bi2 bd2 h; cases h; omega) heq
          simp only [List.length_cons]
          omega
        · rw [if_neg hlt] at heq
          have hbi := hb bi bd rfl
          have := ih (i + 1) (some (bi, bd)) j d (by intro bi2 bd2 h; cases h; omega) heq
          simp only [List.length_cons]
          omega

theorem findNearestIdx_lt {current : Location} {remaining : List Location} {i : ℕ}
    (h : findNearestIdx current remaining = some i) : i < remaining.length := by
  unfold findNearestIdx at h
  cases hc : current.coordinates with
  | none => rw [hc] at h; simp at h
  | some cc =>
    rw [hc] at h
    simp only [Option.map_eq_some'] at h
    obtain ⟨⟨j, d⟩, hj, rfl⟩ := h
    have := nearestScan_some_lt cc remaining 0 none j d (by intro bi bd h; cases h) hj
    simpa using this

/-- The greedy nearest-neighbour `while` loop of `optimizeClusterOrder`: pick
the nearest remaining location, append it, delete it from the remaining set;
when no candidate has coordinates, append all remaining in original order. -/
noncomputable def nnGo (current : Location) (remaining : List Location) : List Location :=
  match findNearestIdx current remaining with
  | some i =>
    if hi : i < remaining.length then
      let loc := remaining.get ⟨i, hi⟩
      loc :: nnGo loc (remaining.eraseIdx i)
    else remaining
  | none => remaining
termination_by remaining.length
decreasing_by
  rw [List.length_eraseIdx, if_pos hi]
  omega

/-- `ClusteringAgent.optimizeClusterOrder`. -/
noncomputable def optimizeClusterOrder (locations : List Location) : List Location :=
  if locations.length ≤ 2 then locations
  else
    match locations with
    | [] => []
    | first :: rest => first :: nnGo first rest

/-- Scan used by `optimizeClusterSequence` (cluster centroids always exist, so
there is no coordinate check). -/
noncomputable def seqScan (ccoord : Coord) :
    List ClusterGroup → ℕ → Option (ℕ × ℝ) → Option (ℕ × ℝ)
  | [], _, best => best
  | cl :: rest, i, best =>
    let d := haversineDistance ccoord cl.centroid
    match best with
    | none => seqScan ccoord rest (i + 1) (some (i, d))
    | some (bi, bd) =>
      if d < bd then seqScan ccoord rest (i + 1) (some (i, d))
      else seqScan ccoord rest (i + 1) (some (bi, bd))

theorem seqScan_some_lt (ccoord : Coord) :
    ∀ (l : List ClusterGroup) (i : ℕ) (best : Option (ℕ × ℝ)) (j : ℕ) (d : ℝ),
      (∀ bi bd, best = some (bi, bd) → bi < i) →
      seqScan ccoord l i best = some (j, d) → j < i + l.length := by
  intro l
  induction l with
  | nil =>
    intro i best j d hb heq
    simp only [seqScan] at heq
    simpa using hb j d heq
  | cons cl rest ih =>
    intro i best j d hb heq
    simp only [seqScan] at heq
    cases best with
    | none =>
      simp only at heq
      have := ih (i + 1) (some (i, haversineDistance ccoord cl.centroid)) j d
        (by intro bi bd h; cases h; omega) heq
      simp only [List.length_cons]
      omega
    | some p =>
      obtain ⟨bi, bd⟩ := p
      simp only at heq
      by_cases hlt : haversineDistance ccoord cl.centroid < bd
      · rw [if_pos hlt] at heq
        have := ih (i + 1) (some (i, haversineDistance ccoord cl.centroid)) j d
          (by intro bi2 bd2 h; cases h; omega) heq
        simp only [List.length_cons]
        omega
      · rw [if_neg hlt] at heq
        have hbi := hb bi bd rfl
        have := ih (i + 1) (some (bi, bd)) j d (by intro bi2 bd2 h; cases h; omega) heq
        simp only [List.length_cons]
        omega

/-- Greedy `while` loop of `optimizeClusterSequence` over centroids. -/
noncomputable def seqGo (current : ClusterGroup) (remaining : List ClusterGroup) :
    List ClusterGroup :=
  match (seqScan current.centroid remaining 0 none).map Prod.fst with
  | some i =>
    if hi : i < remaining.length then
      let cl := remaining.get ⟨i, hi⟩
      cl :: seqGo cl (remaining.eraseIdx i)
    else remaining
  | none => remaining
termination_by remaining.length
decreasing_by
  rw [List.length_eraseIdx, if_pos hi]
  omega

/-- `ClusteringAgent.optimizeClusterSequence`. -/
noncomputable def optimizeClusterSequence (clusters : List ClusterGroup) : List ClusterGroup :=
  if clusters.length ≤ 2 then clusters
  else
    match clusters with
    | [] => []
    | first :: rest => first :: seqGo first rest

end ClusteringAgent

namespace LocationAgent

/-- `LocationAgent.calculateCentroid`: arithmetic mean of a coordinate list;
hardcoded Tokyo default `{lat: 35.6762, lng: 139.6503}` on empty input. -/
noncomputable def calculateCentroid (coordinates : List Coord) : Coord :=
  match coordinates with
  | [] => ⟨35.6762, 139.6503⟩
  | _ =>
    let sum := coordinates.foldl (fun acc c => Coord.mk (acc.lat + c.lat) (acc.lng + c.lng)) ⟨0, 0⟩
    ⟨sum.lat / coordinates.length, sum.lng / coordinates.length⟩

end LocationAgent

/-- Stable insertion of `a` into `l`: `a` goes before the first element whose
key is strictly worse (for an ascending sort: strictly larger). This is the
unique insertion position of a stable sort, which is what ECMAScript's
`Array.prototype.sort` guarantees. -/
def insertOn [LinearOrder β] (key : α → β) (a : α) : List α → List α
  | [] => [a]
  | b :: l => if key a ≤ key b then a :: b :: l else b :: insertOn key a l

/-- Stable sort ascending by `key`; embedding of `array.sort(comparator)` for a
numeric comparator `key a - key b`. Descending comparators are embedded by
negating the key. -/
def sortOn [LinearOrder β] (key : α → β) : List α → List α
  | [] => []
  | a :: l => insertOn key a (sortOn key l)

theorem insertOn_perm [LinearOrder β] (key : α → β) (a : α) (l : List α) :
    List.Perm (insertOn key a l) (a :: l) := by
  induction l with
  | nil => simp [insertOn]
  | cons b t ih =>
    simp only [insertOn]
    by_cases h : key a ≤ key b
    · rw [if_pos h]
    · rw [if_neg h]
      exact (ih.cons b).trans (List.Perm.swap a b t)

theorem sortOn_perm [LinearOrder β] (key : α → β) (l : List α) :
    List.Perm (sortOn key l) l := by
  induction l with
  | nil => simp [sortOn]
  | cons a t ih =>
    exact (insertOn_perm key a (sortOn key t)).trans (ih.cons a)

theorem sortOn_length [LinearOrder β] (key : α → β) (l : List α) :
    (sortOn key l).length = l.length :=
  (sortOn_perm key l).length_eq

/-- Elements skipped over by `insertOn` have a strictly smaller key than the
inserted element, so insertion cannot change the subsequence of elements whose
key equals any fixed value `c` other than by prepending `a` when `key a = c`. -/
theorem insertOn_filter [LinearOrder β] [DecidableEq β] (key : α → β) (a : α) (l : List α)
    (c : β) :
    (insertOn key a l).filter (fun x => key x = c) =
      if key a = c then a :: l.filter (fun x => key x = c)
      else l.filter (fun x => key x = c) := by
  induction l with
  | nil => by_cases h : key a = c <;> simp [insertOn, h]
  | cons b t ih =>
    simp only [insertOn]
    by_cases h : key a ≤ key b
    · rw [if_pos h]
      by_cases hc : key a = c <;> simp [List.filter_cons, hc]
    · rw [if_neg h]
      have hba : key b < key a := lt_of_not_le h
      by_cases hc : key a = c
      · have hbc : ¬ key b = c := fun hbc => absurd (hc ▸ hbc : key b = key a) (ne_of_lt hba)
        simp [List.filter_cons, hbc, hc, ih]
      · simp [List.filter_cons, hc, ih]

/-- Stability of `sortOn`: for every key value `c`, the elements with that key
appear in the sorted output in exactly their input order. -/
theorem sortOn_filter_stable [LinearOrder β] [DecidableEq β] (key : α → β) (l : List α)
    (c : β) :
    (sortOn key l).filter (fun x => key x = c) = l.filter (fun x => key x = c) := by
  induction l with
  | nil => simp [sortOn]
  | cons a t ih =>
    simp only [sortOn]
    rw [insertOn_filter]
    by_cases hc : key a = c
    · rw [if_pos hc, ih]
      simp [List.filter, hc]
    · rw [if_neg hc, ih]
      simp [List.filter, hc]

namespace BudgetAgent

/-- `BudgetBreakdown` from budgetAgent.ts. -/
structure BudgetBreakdown where
  food : ℚ
  activities : ℚ
  transport : ℚ
  accommodation : ℚ
  misc : ℚ
  total : ℚ
deriving DecidableEq

/-- `BudgetAgent.estimateCost`. `baseCosts[type] || 15`: the viewpoint entry 0
is falsy in JS and falls through to 15. `priceLevel || 2`: an absent (or zero)
price level falls back to 2. -/
def estimateCost (l : Location) : ℚ :=
  let baseTable : ℚ :=
    match l.type with
    | .restaurant => 25
    | .attraction => 15
    | .activity => 40
    | .accommodation => 100
    | .viewpoint => 0
    | .market => 20
    | .temple => 5
    | .cafe => 15
    | .other => 10
  let base := if baseTable = 0 then 15 else baseTable
  let multiplier : ℚ :=
    match l.priceLevel with
    | some p => if p = 0 then 2 else (p : ℚ)
    | none => 2
  base * (multiplier / 2)

/-- Per-location cost in `calculateBreakdown`:
`location.estimatedCost || this.estimateCost(location)` (JS `||`, so an
explicit cost of 0 also falls through to the estimate). -/
def effectiveCost (l : Location) : ℚ :=
  match l.estimatedCost with
  | some c => if c = 0 then estimateCost l else c
  | none => estimateCost l

/-- `BudgetAgent.calculateBreakdown`. -/
def calculateBreakdown (locations : List Location) (numDays : ℕ) : BudgetBreakdown :=
  let acc := locations.foldl
    (fun (acc : BudgetBreakdown) l =>
      let cost := effectiveCost l
      match l.type with
      | .restaurant => { acc with food := acc.food + cost }
      | .accommodation => { acc with accommodation := acc.accommodation + cost * numDays }
      | .attraction => { acc with activities := acc.activities + cost }
      | .activity => { acc with activities := acc.activities + cost }
      | .market => { acc with misc := acc.misc + cost }
      | _ => { acc with misc := acc.misc + cost })
    ⟨0, 0, 0, 0, 0, 0⟩
  let transport : ℚ := ((round (acc.activities * 0.15) : ℤ) : ℚ)
  let misc := acc.misc + ((round ((acc.food + acc.activities) * 0.1) : ℤ) : ℚ)
  { food := acc.food
    activities := acc.activities
    transport := transport
    accommodation := acc.accommodation
    misc := misc
    total := acc.food + acc.activities + transport + acc.accommodation + misc }

/-- `BudgetOptimization` from budgetAgent.ts: keep entries `(location, reason)`,
replace entries `(original, alternative, savings)`, remove entries
`(location, reason)`. -/
structure BudgetOptimization where
  keep : List (Location × String)
  replace : List (Location × String × ℚ)
  remove : List (Location × String)

/-- Cost used when sorting and cutting inside `simpleOptimization`:
`location.estimatedCost || 0`. -/
def cut (l : Location) : ℚ := (l.estimatedCost.getD 0)

/-- The accumulation loop of `simpleOptimization` over the cost-sorted list. -/
def simpleOptLoop (origLen : ℕ) (overage : ℚ) :
    List Location → ℚ → BudgetOptimization → BudgetOptimization
  | [], _, acc => acc
  | location :: rest, savings, acc =>
    let cost := cut location
    let plHigh : Bool := match location.priceLevel with | some p => decide (3 ≤ p) | none => false
    if overage ≤ savings then
      simpleOptLoop origLen overage rest savings
        { acc with keep := acc.keep ++ [(location, "Within budget after adjustments")] }
    else if plHigh ∧ location.type = .restaurant then
      simpleOptLoop origLen overage rest (savings + ((round (cost * 0.5) : ℤ) : ℚ))
        { acc with replace := acc.replace ++
            [(location, "Local eatery with similar cuisine", ((round (cost * 0.5) : ℤ) : ℚ))] }
    else if location.type = .activity ∧ 50 < cost then
      simpleOptLoop origLen overage rest (savings + ((round (cost * 0.7) : ℤ) : ℚ))
        { acc with replace := acc.replace ++
            [(location, "Free/cheaper alternative nearby", ((round (cost * 0.7) : ℤ) : ℚ))] }
    else if 30 < cost ∧ 5 < origLen then
      simpleOptLoop origLen overage rest (savings + cost)
        { acc with remove := acc.remove ++
            [(location, "Lowest priority based on ratings and distance")] }
    else
      simpleOptLoop origLen overage rest savings
        { acc with keep := acc.keep ++ [(location, "Good value")] }

/-- `BudgetAgent.simpleOptimization`: the deterministic local fallback. Sorts a
copy of the list by `estimatedCost || 0` descending (stable), then walks it
accumulating savings until they cover the overage. -/
def simpleOptimization (locations : List Location) (currentTotal targetBudget : ℚ) :
    BudgetOptimization :=
  let overage := currentTotal - targetBudget
  let sorted := sortOn (fun l => -(cut l)) locations
  simpleOptLoop locations.length overage sorted 0 ⟨[], [], []⟩

/-- `BudgetAgent.applyOptimization`: drop the locations in the remove list. -/
def applyOptimization (locations : List Location) (optimization : BudgetOptimization) :
    List Location :=
  let removeIds := optimization.remove.map (fun r => r.1.id)
  locations.filter (fun l => ¬ removeIds.contains l.id)

/-- `BudgetOutput` from budgetAgent.ts. -/
structure BudgetOutput where
  breakdown : BudgetBreakdown
  isOverBudget : Bool
  overageAmount : ℚ
  optimization : Option BudgetOptimization
  adjustedLocations : Option (List Location)

/-- `BudgetAgent.process` (the success path). Over-budget check:
`breakdown.total > preferences.budget`, overage `max(0, total - budget)`.
The optimization step normally asks the external chat service first
(budgetAgent.ts lines 155-174); on failure or unparseable output it always
falls back to `simpleOptimization`, which is the deterministic path embedded
here. -/
def process (locations : List Location) (preferences : TripPreferences) (numDays : ℕ) :
    BudgetOutput :=
  let breakdown := calculateBreakdown locations numDays
  let isOverBudget := preferences.budget < breakdown.total
  let overageAmount := max 0 (breakdown.total - preferences.budget)
  if isOverBudget then
    let optimization := simpleOptimization locations breakdown.total preferences.budget
    { breakdown := breakdown
      isOverBudget := isOverBudget
      overageAmount := overageAmount
      optimization := some optimization
      adjustedLocations := some (applyOptimization locations optimization) }
  else
    { breakdown := breakdown
      isOverBudget := isOverBudget
      overageAmount := overageAmount
      optimization := none
      adjustedLocations := none }

end BudgetAgent

/-- `s.split(':')` — JS string split with a one-character separator, expressed
over the character list so that concrete schedules kernel-evaluate. -/
def splitColon (s : String) : List String := (s.data.splitOn ':').map String.mk

/-- JS `parseInt` restricted to the shapes the scheduler feeds it: a leading
run of decimal digits parses to a number, anything else is NaN (`none`). -/
def parseIntNat (s : String) : Option ℕ :=
  let digits := s.data.takeWhile Char.isDigit
  if digits.isEmpty then none
  else some (digits.foldl (fun acc c => acc * 10 + (c.toNat - 48)) 0)

/-- JS `haystack.includes(needle)` on strings. -/
def strIncludes (s pat : String) : Bool := decide (pat.data <:+: s.data)

namespace TimeAgent

/-- `TimeSlot` interface local to timeAgent.ts. -/
structure TimeSlot where
  locationId : String
  startTime : String
  endTime : String
  duration : ℤ
  travelTime : ℤ
  isOptimalTime : Bool
  notes : Option String
deriving DecidableEq

/-- `DaySchedule` interface local to timeAgent.ts. -/
structure DaySchedule where
  date : String
  slots : List TimeSlot
  totalDuration : ℤ
  restBreaks : ℕ
deriving DecidableEq

/-- `TimeOrchestratorOutput` from timeAgent.ts. -/
structure TimeOrchestratorOutput where
  schedules : List DaySchedule
  warnings : List String
  suggestions : List String

/-- `TimeAgent.getOptimalStartTime` (minutes from midnight). The name check is
`name.toLowerCase().includes(...)`, embedded character-wise. -/
def getOptimalStartTime (location : Location) : ℕ :=
  match location.type with
  | .viewpoint => 17 * 60
  | .market => 10 * 60
  | .restaurant =>
    let lower := String.mk (location.name.data.map Char.toLower)
    if strIncludes lower "breakfast" then 8 * 60
    else if strIncludes lower "dinner" then 19 * 60
    else 12 * 60
  | .attraction => 9 * 60
  | _ => 11 * 60

/-- `TimeAgent.sortByOptimalTime`: stable sort ascending by optimal start
minute (JS `sort` with comparator `aTime - bTime`). -/
def sortByOptimalTime (locations : List Location) : List Location :=
  sortOn getOptimalStartTime locations

/-- `TimeAgent.estimateVisitDuration`. `durations[type] || 45`: accommodation's
0 is falsy and falls through to 45. -/
def estimateVisitDuration (location : Location) : ℤ :=
  let d : ℤ :=
    match location.type with
    | .restaurant => 75
    | .attraction => 90
    | .activity => 120
    | .accommodation => 0
    | .viewpoint => 45
    | .market => 60
    | .temple => 60
    | .cafe => 45
    | .other => 45
  if d = 0 then 45 else d

/-- `TimeAgent.estimateTravelTime`: 20 flat minutes when either endpoint lacks
coordinates, otherwise haversine distance at 15 km/h, rounded, minimum 10. -/
noncomputable def estimateTravelTime (fromLoc toLoc : Location) : ℤ :=
  match fromLoc.coordinates, toLoc.coordinates with
  | some fc, some tc =>
    let distance := haversineDistance fc tc
    let timeHours := distance / 15
    max 10 (round (timeHours * 60))
  | _, _ => 20

/-- `TimeAgent.adjustForMealTime`: returns `(adjust, newTime)`. Restaurants
with the clock in [11:00,12:00) snap to 12:00, in [17:00,18:00) to 18:00. -/
def adjustForMealTime (location : Location) (currentTime : ℤ) : Bool × ℤ :=
  if location.type = .restaurant then
    let hour := Int.fdiv currentTime 60
    if 11 ≤ hour ∧ hour < 12 then (true, 12 * 60)
    else if 17 ≤ hour ∧ hour < 18 then (true, 18 * 60)
    else (false, currentTime)
  else (false, currentTime)

/-- `TimeAgent.isOptimalVisitTime`. -/
def isOptimalVisitTime (location : Location) (currentTime : ℤ) : Bool :=
  let hour := Int.fdiv currentTime 60
  match location.type with
  | .viewpoint => decide (16 ≤ hour ∧ hour ≤ 19)
  | .attraction => decide (9 ≤ hour ∧ hour ≤ 11)
  | .market => decide (8 ≤ hour ∧ hour ≤ 11)
  | .restaurant => decide ((12 ≤ hour ∧ hour ≤ 14) ∨ (18 ≤ hour ∧ hour ≤ 21))
  | _ => true

/-- `TimeAgent.generateTimeNotes` (note text ASCII-simplified; the source's
emoji prefixes are display-only and inspected by no claim). -/
def generateTimeNotes (location : Location) (currentTime : ℤ) : Option String :=
  let hour := Int.fdiv currentTime 60
  if location.type = .viewpoint ∧ 16 ≤ hour ∧ hour ≤ 18 then
    some "Perfect for sunset views"
  else if location.type = .attraction ∧ 9 ≤ hour ∧ hour ≤ 10 then
    some "Best time - fewer crowds"
  else if location.type = .market ∧ 8 ≤ hour ∧ hour ≤ 10 then
    some "Freshest produce available"
  else if location.type = .restaurant then
    some "Consider making a reservation"
  else none

/-- `n.toString().padStart(2, '0')` for the 0..59 values the scheduler
renders. -/
def pad2 (n : ℤ) : String := if n < 10 then "0" ++ toString n else toString n

/-- `TimeAgent.minutesToTime`: `Math.floor(minutes/60) % 24` zero-padded, colon,
`minutes % 60` zero-padded. `Math.floor` of a quotient is `Int.fdiv`; the
scheduler's clock is never negative, where JS `%` and `Int.emod` agree. -/
def minutesToTime (minutes : ℤ) : String :=
  let hours := (Int.fdiv minutes 60) % 24
  let mins := minutes % 60
  pad2 hours ++ ":" ++ pad2 mins

/-- The slot-emitting loop of `createDaySchedule`. State: remaining (sorted)
locations, previous location (`none` at `i = 0`), index `i`, running clock in
minutes, rest-break count. The source's rest-break guard is
`i > 0 && i % 3 === 0 && slots.length > 0`; the loop pushes exactly one slot
per iteration, so `slots.length = i` and the last conjunct is implied by the
first. -/
noncomputable def scheduleWalk :
    List Location → Option Location → ℕ → ℤ → ℕ → List TimeSlot × ℤ × ℕ
  | [], _, _, t, rb => ([], t, rb)
  | location :: rest, prev, i, t, rb =>
    let duration := estimateVisitDuration location
    let travelTime : ℤ := match prev with | some p => estimateTravelTime p location | none => 0
    let t1 := t + travelTime
    let needBreak : Bool := decide (0 < i) && decide (i % 3 = 0)
    let t2 := if needBreak then t1 + 20 else t1
    let rb2 := if needBreak then rb + 1 else rb
    let adj := adjustForMealTime location t2
    let t3 := if adj.1 then adj.2 else t2
    let slot : TimeSlot :=
      { locationId := location.id
        startTime := minutesToTime t3
        endTime := minutesToTime (t3 + duration)
        duration := duration
        travelTime := travelTime
        isOptimalTime := isOptimalVisitTime location t3
        notes := generateTimeNotes location t3 }
    let res := scheduleWalk rest (some location) (i + 1) (t3 + duration) rb2
    (slot :: res.1, res.2.1, res.2.2)

/-- Abstraction of the date rendering in `createDaySchedule`
(`new Date(startDate ?? now)` + `setDate(+dayIndex)` + ISO split): calendar
arithmetic is outside the embedding; no claim inspects the date string. Like
the source value it depends only on `startDate` and `dayIndex`. -/
def dayDate (startDate : Option String) (dayIndex : ℕ) : String :=
  (startDate.getD "today") ++ "+" ++ toString dayIndex

/-- `TimeAgent.createDaySchedule`. The start hour is
`parseInt(preferences.startTime.split(':')[0])` when `startTime` is truthy
(present and non-empty), else 9; minutes are truncated away. -/
noncomputable def createDaySchedule (locations : List Location) (dayIndex : ℕ)
    (preferences : TripPreferences) : DaySchedule :=
  let startHour : ℤ :=
    match preferences.startTime with
    | some s => if s = "" then 9 else (((parseIntNat ((splitColon s).headD "")).getD 0 : ℕ) : ℤ)
    | none => 9
  let sortedLocations := sortByOptimalTime locations
  let res := scheduleWalk sortedLocations none 0 (startHour * 60) 0
  { date := dayDate preferences.startDate dayIndex
    slots := res.1
    totalDuration := res.2.1 - startHour * 60
    restBreaks := res.2.2 }

/-- The slice `orderedLocations.slice(day * locationsPerDay,
(day + 1) * locationsPerDay)` taken by each day of `TimeAgent.process`. -/
def dayChunk (ordered : List Location) (locationsPerDay day : ℕ) : List Location :=
  (ordered.drop (day * locationsPerDay)).take locationsPerDay

/-- `TimeAgent.process` (success path). Note that the `locations` parameter is
dead: the schedule (and the warnings/suggestions) are computed from
`clusters.flatMap(c => c.locations)` alone. `locationsPerDay` is
`Math.ceil(orderedLocations.length / numDays)` (the orchestrator always passes
`numDays ≥ 1`); each day takes the slice
`[day*locationsPerDay, (day+1)*locationsPerDay)` and empty slices are skipped
(`continue`). -/
noncomputable def process (clusters : List ClusterGroup) (locations : List Location)
    (preferences : TripPreferences) (numDays : ℕ) : TimeOrchestratorOutput :=
  let orderedLocations := clusters.flatMap ClusterGroup.locations
  let locationsPerDay := (orderedLocations.length + numDays - 1) / numDays
  let dayRuns := (List.range numDays).filterMap (fun day =>
    let dayLocations := dayChunk orderedLocations locationsPerDay day
    if dayLocations.length = 0 then none
    else some (day, createDaySchedule dayLocations day preferences))
  { schedules := dayRuns.map Prod.snd
    warnings := dayRuns.filterMap (fun p =>
      if 10 * 60 < p.2.totalDuration then
        some ("Day " ++ toString (p.1 + 1) ++ " is quite packed (" ++
          toString (Int.fdiv (p.2.totalDuration + 30) 60) ++
          " hours). Consider moving some activities.")
      else none)
    suggestions :=
      (if orderedLocations.any (fun l => decide (l.type = .viewpoint)) then
        ["Viewpoints are best visited during golden hour (sunrise/sunset) for the best experience."]
      else []) ++
      (if 3 < (orderedLocations.filter (fun l => decide (l.type = .restaurant))).length then
        ["Consider booking restaurants in advance, especially for dinner."]
      else []) }

end TimeAgent

namespace Orchestrator

/-- Stages 5–7 of `AgentOrchestrator.process` (orchestrator.ts lines 107-141):
clustering (`clusteringAgent.process` steps 1–4: proximity clustering,
within-cluster ordering, cluster sequencing), the budget agent with
`numDays = Math.max(1, Math.ceil(n / 5))`, and the time agent. The orchestrator
passes `budgetLocations = adjustedLocations || finalLocations` to
`timeAgent.process` as its `locations` argument. Returns the budget output,
the ordered clusters, and the time output. -/
noncomputable def stages567 (finalLocations : List Location) (preferences : TripPreferences) :
    BudgetAgent.BudgetOutput × List ClusterGroup × TimeAgent.TimeOrchestratorOutput :=
  let clusters0 := ClusteringAgent.clusterByProximity finalLocations
  let clusters1 := clusters0.map
    (fun c => { c with locations := ClusteringAgent.optimizeClusterOrder c.locations })
  let orderedClusters := ClusteringAgent.optimizeClusterSequence clusters1
  let numDays := max 1 ((finalLocations.length + 4) / 5)
  let budgetResult := BudgetAgent.process finalLocations preferences numDays
  let budgetLocations := budgetResult.adjustedLocations.getD finalLocations
  let timeResult := TimeAgent.process orderedClusters budgetLocations preferences numDays
  (budgetResult, orderedClusters, timeResult)

end Orchestrator

/-- Minute value of a rendered "HH:MM" string; claim vocabulary for comparing
emitted time strings numerically. -/
def timeToMinutes (s : String) : ℤ :=
  match splitColon s with
  | [h, m] => (((parseIntNat h).getD 0 : ℕ) : ℤ) * 60 + (((parseIntNat m).getD 0 : ℕ) : ℤ)
  | _ => 0

/-- Modelled from the spec (§4.1): `centroid` with a *caller-supplied* default
for empty input — the shape the specification claims for the code's centroid
functions; used only to compare spec against code. -/
noncomputable def centroidSpec (default : Coord) (points : List Coord) : Coord :=
  match points with
  | [] => default
  | _ => ⟨(points.map Coord.lat).sum / points.length, (points.map Coord.lng).sum / points.length⟩

/-! ### Concrete inputs used by counterexamples and witnesses -/

/-- A location with only the fields a given scenario needs populated. -/
def mkLoc (id name : String) (type : LocationType) (coordinates : Option Coord)
    (priceLevel : Option ℕ) (estimatedCost : Option ℚ) : Location :=
  { id := id, name := name, address := none, coordinates := coordinates,
    type := type, priceLevel := priceLevel, estimatedCost := estimatedCost, verified := true }

/-- Preferences with a 09:00–21:00 day and a given flat budget. -/
def mkPrefs (budget : ℚ) : TripPreferences :=
  { budget := budget, currency := "USD", companions := "solo", travelStyle := ["food"],
    startDate := none, endDate := none,
    startTime := some "09:00", endTime := some "21:00" }

/-- C2: one `other`-type location with an explicit cost of 500. -/
def c2locs : List Location := [mkLoc "x1" "Pricey Tour" .other none none (some 500)]

/-- C3: a single restaurant with no breakfast/dinner hint in the name. -/
def c3restaurant : Location := mkLoc "r1" "Harbor Grill" .restaurant none none none

/-- C10: thirteen coordinate-less `other` locations; enough that the running
clock crosses midnight. -/
def c10pois : List Location :=
  [mkLoc "p1" "Stop1" .other none none none,
   mkLoc "p2" "Stop2" .other none none none,
   mkLoc "p3" "Stop3" .other none none none,
   mkLoc "p4" "Stop4" .other none none none,
   mkLoc "p5" "Stop5" .other none none none,
   mkLoc "p6" "Stop6" .other none none none,
   mkLoc "p7" "Stop7" .other none none none,
   mkLoc "p8" "Stop8" .other none none none,
   mkLoc "p9" "Stop9" .other none none none,
   mkLoc "p10" "Stop10" .other none none none,
   mkLoc "p11" "Stop11" .other none none none,
   mkLoc "p12" "Stop12" .other none none none,
   mkLoc "p13" "Stop13" .other none none none]

/-- C1: six locations, only the first coordinate-bearing (so it forms the only
cluster) and expensive enough (cost 40 > 30, list length 6 > 5) that the
budget fallback removes it. -/
def c1locs : List Location :=
  [mkLoc "loc-1" "Grand Tour" .other (some ⟨35, 139⟩) none (some 40),
   mkLoc "loc-2" "Spot2" .other none none none,
   mkLoc "loc-3" "Spot3" .other none none none,
   mkLoc "loc-4" "Spot4" .other none none none,
   mkLoc "loc-5" "Spot5" .other none none none,
   mkLoc "loc-6" "Spot6" .other none none none]

/-- C9 witness input: a single coordinate. -/
def c9points : List Coord := [⟨2, 4⟩]

/-- C5 counterexample input: three equatorial locations.
At latitude 0, longitudes 0°, 0.026° and 0.047° are pairwise about 2.89 km,
5.23 km and 2.34 km apart, so with the 3 km radius: B joins A's cluster, C is
beyond A's radius and seeds its own cluster — even though B is within 3 km of
C. -/
def c5A : Location := mkLoc "a" "A" .other (some ⟨0, 0⟩) none none

/-- Second equatorial location (see `c5A`). -/
def c5B : Location := mkLoc "b" "B" .other (some ⟨0, 0.026⟩) none none

/-- Third equatorial location (see `c5A`). -/
def c5C : Location := mkLoc "c" "C" .other (some ⟨0, 0.047⟩) none none

/-- The C5 counterexample POI list. -/
def c5pois : List Location := [c5A, c5B, c5C]

/-- C4/C5 witness input: a single coordinate-bearing location. -/
def c4loc : Location := mkLoc "w" "W" .other (some ⟨0, 0⟩) none none

/-- The cluster produced by `clusterByProximity [c4loc]`. -/
noncomputable def c4cluster : ClusterGroup :=
  { id := "cluster-" ++ toString 1
    name := ClusteringAgent.generateClusterName [c4loc]
    centroid := ClusteringAgent.calculateCentroid [c4loc]
    locations := [c4loc]
    suggestedDuration := ([c4loc].map ClusteringAgent.estimateDuration).sum }

/-- First cluster produced by `clusterByProximity c5pois` (A with B gathered). -/
noncomputable def c5cluster1 : ClusterGroup :=
  { id := "cluster-" ++ toString 1
    name := ClusteringAgent.generateClusterName [c5A, c5B]
    centroid := ClusteringAgent.calculateCentroid [c5A, c5B]
    locations := [c5A, c5B]
    suggestedDuration := ([c5A, c5B].map ClusteringAgent.estimateDuration).sum }

/-- Second cluster produced by `clusterByProximity c5pois` (C alone). -/
noncomputable def c5cluster2 : ClusterGroup :=
  { id := "cluster-" ++ toString 2
    name := ClusteringAgent.generateClusterName [c5C]
    centroid := ClusteringAgent.calculateCentroid [c5C]
    locations := [c5C]
    suggestedDuration := ([c5C].map ClusteringAgent.estimateDuration).sum }

/-- The C5 claim as stated: for every cluster of the output and any two input
POIs within `radiusKm = 3` haversine distance of that cluster's seed (its
first member), both POIs are members of one common cluster. -/
def sameClusterClaim : Prop :=
  ∀ (pois : List Location) (c : ClusterGroup) (s p q : Location) (scoord pcoord qcoord : Coord),
    c ∈ ClusteringAgent.clusterByProximity pois →
    c.locations.head? = some s →
    s.coordinates = some scoord →
    p ∈ pois → p.coordinates = some pcoord →
    q ∈ pois → q.coordinates = some qcoord →
    haversineDistance scoord pcoord ≤ 3 →
    haversineDistance scoord qcoord ≤ 3 →
    ∃ c2, c2 ∈ ClusteringAgent.clusterByProximity pois ∧
      p ∈ c2.locations ∧ q ∈ c2.locations

/-- C7 witness input: one cluster holding three locations, scheduled over two
days. -/
def c7clusters : List ClusterGroup :=
  [{ id := "cluster-1", name := "A Area", centroid := ⟨0, 0⟩,
     locations := [mkLoc "w1" "W1" .other none none none,
       mkLoc "w2" "W2" .other none none none,
       mkLoc "w3" "W3" .other none none none],
     suggestedDuration := 135 }]

/-! ### Helper lemmas -/

theorem coordFold_eq_sum (points : List Coord) :
    ∀ (a : Coord),
      points.foldl (fun acc c => Coord.mk (acc.lat + c.lat) (acc.lng + c.lng)) a =
        ⟨a.lat + (points.map Coord.lat).sum, a.lng + (points.map Coord.lng).sum⟩ := by
  induction points with
  | nil => intro a; simp
  | cons c t ih =>
    intro a
    simp only [List.foldl_cons, ih, List.map_cons, List.sum_cons, Coord.mk.injEq]
    exact ⟨by ring, by ring⟩

theorem perm_get_cons_eraseIdx {α : Type} (l : List α) (i : Fin l.length) :
    l.Perm (l.get i :: l.eraseIdx i) := by
  induction l with
  | nil => exact absurd i.isLt (by simp)
  | cons a t ih =>
    cases i using Fin.cases with
    | zero => exact List.Perm.refl _
    | succ j =>
      have hstep : (a :: t).Perm (a :: (t.get j :: t.eraseIdx j)) := (ih j).cons a
      have hswap : (a :: (t.get j :: t.eraseIdx j)).Perm (t.get j :: a :: t.eraseIdx j) :=
        List.Perm.swap _ _ _
      exact hstep.trans hswap

theorem nnGo_perm_aux :
    ∀ (n : ℕ) (current : Location) (remaining : List Location), remaining.length = n →
      (ClusteringAgent.nnGo current remaining).Perm remaining := by
  intro n
  induction n using Nat.strong_induction_on with
  | _ n ih =>
    intro current remaining hlen
    rw [ClusteringAgent.nnGo]
    split
    · rename_i i heq
      split
      · rename_i hi
        have hi2 : i < n := by omega
        have h1 : (remaining.eraseIdx i).length = n - 1 := by
          rw [List.length_eraseIdx, if_pos hi]; omega
        have hp := ih (n - 1) (by omega) (remaining.get ⟨i, hi⟩) (remaining.eraseIdx i) h1
        exact ((hp.cons _).trans (perm_get_cons_eraseIdx remaining ⟨i, hi⟩).symm)
      · exact List.Perm.refl _
    · exact List.Perm.refl _

theorem nnGo_perm (current : Location) (remaining : List Location) :
    (ClusteringAgent.nnGo current remaining).Perm remaining :=
  nnGo_perm_aux remaining.length current remaining rfl

theorem optimizeClusterOrder_perm (locations : List Location) :
    (ClusteringAgent.optimizeClusterOrder locations).Perm locations := by
  unfold ClusteringAgent.optimizeClusterOrder
  split
  · exact List.Perm.refl _
  · cases locations with
    | nil => exact List.Perm.refl _
    | cons first rest => exact (nnGo_perm first rest).cons first

theorem scheduleWalk_slots_length :
    ∀ (locs : List Location) (prev : Option Location) (i : ℕ) (t : ℤ) (rb : ℕ),
      (TimeAgent.scheduleWalk locs prev i t rb).1.length = locs.length := by
  intro locs
  induction locs with
  | nil => intro prev i t rb; rfl
  | cons l rest ih =>
    intro prev i t rb
    simp only [TimeAgent.scheduleWalk, List.length_cons]
    rw [ih]

theorem createDaySchedule_slots_length (locs : List Location) (dayIndex : ℕ)
    (preferences : TripPreferences) :
    (TimeAgent.createDaySchedule locs dayIndex preferences).slots.length = locs.length := by
  simp only [TimeAgent.createDaySchedule]
  rw [scheduleWalk_slots_length]
  exact sortOn_length _ _

theorem sum_dayChunk_lengths (lpd : ℕ) :
    ∀ (k : ℕ) (l : List Location), l.length ≤ k * lpd →
      ((List.range k).map (fun d => (TimeAgent.dayChunk l lpd d).length)).sum = l.length := by
  intro k
  induction k with
  | zero =>
    intro l h
    simp only [Nat.zero_mul, Nat.le_zero] at h
    simp [h]
  | succ k ih =>
    intro l h
    rw [List.range_succ_eq_map]
    simp only [List.map_cons, List.map_map, List.sum_cons, TimeAgent.dayChunk, Nat.zero_mul,
      List.drop_zero]
    have hpt : ∀ d : ℕ, ((fun d => ((l.drop (d * lpd)).take lpd).length) ∘ Nat.succ) d =
        (fun d => (TimeAgent.dayChunk (l.drop lpd) lpd d).length) d := by
      intro d
      simp only [Function.comp, TimeAgent.dayChunk]
      rw [List.drop_drop, Nat.succ_mul, Nat.add_comm]
    rw [List.map_congr_left (fun d _ => hpt d)]
    have hmul : (k + 1) * lpd = k * lpd + lpd := Nat.succ_mul k lpd
    have htail := ih (l.drop lpd) (by rw [List.length_drop]; omega)
    rw [htail, List.length_take, List.length_drop]
    rcases le_total lpd l.length with hc | hc
    · rw [min_eq_left hc]; omega
    · rw [min_eq_right hc]; omega

theorem lpd_covers (n numDays : ℕ) (h : 1 ≤ numDays) :
    n ≤ numDays * ((n + numDays - 1) / numDays) := by
  have hd : 0 < numDays := h
  have h1 := Nat.div_add_mod (n + numDays - 1) numDays
  have h2 := Nat.mod_lt (n + numDays - 1) hd
  omega

theorem filterMap_day_sum (O : List Location) (lpd : ℕ) (preferences : TripPreferences) :
    ∀ days : List ℕ,
      ((days.filterMap (fun day =>
        if (TimeAgent.dayChunk O lpd day).length = 0 then none
        else some (day, TimeAgent.createDaySchedule (TimeAgent.dayChunk O lpd day) day
          preferences))).map (fun p => p.2.slots.length)).sum =
      (days.map (fun day => (TimeAgent.dayChunk O lpd day).length)).sum := by
  intro days
  induction days with
  | nil => rfl
  | cons d t iht =>
    simp only [List.filterMap_cons, List.map_cons, List.sum_cons]
    by_cases hz : (TimeAgent.dayChunk O lpd d).length = 0
    · rw [if_pos hz, iht, hz]
      omega
    · rw [if_neg hz]
      simp only [List.map_cons, List.sum_cons, iht, createDaySchedule_slots_length]

theorem contains_false_not_mem {A : List String} {s : String}
    (hc : A.contains s = false) : s ∉ A := by
  intro hmem
  have h2 : A.contains s = true := List.elem_eq_true_of_mem hmem
  rw [hc] at h2
  exact Bool.noConfusion h2

theorem contains_true_mem {A : List String} {s : String}
    (hc : A.contains s = true) : s ∈ A :=
  List.mem_of_elem_eq_true hc

theorem gather_assigned_mono (sc : Coord) :
    ∀ (scan : List Location) (A : List String) (s : String), s ∈ A →
      s ∈ (ClusteringAgent.gatherNearby sc scan A).2 := by
  intro scan
  induction scan with
  | nil => intro A s hs; exact hs
  | cons other rest ih =>
    intro A s hs
    by_cases hc : A.contains other.id = true
    · simp only [ClusteringAgent.gatherNearby, hc, eq_self_iff_true, if_true, ite_true]
      exact ih A s hs
    · rw [Bool.not_eq_true] at hc
      rcases hco : other.coordinates with _ | oc
      · simp only [ClusteringAgent.gatherNearby, hc, hco, Bool.false_eq_true, if_false, ite_false]
        exact ih A s hs
      · by_cases hd : haversineDistance sc oc ≤ 3
        · simp only [ClusteringAgent.gatherNearby, hc, hco, hd, Bool.false_eq_true, if_false, ite_false, eq_self_iff_true, if_true, ite_true]
          exact ih _ s (List.mem_cons_of_mem _ hs)
        · simp only [ClusteringAgent.gatherNearby, hc, hco, hd, Bool.false_eq_true, if_false, ite_false]
          exact ih A s hs

theorem gather_assigned_iff (sc : Coord) :
    ∀ (scan : List Location) (A : List String) (s : String),
      s ∈ (ClusteringAgent.gatherNearby sc scan A).2 ↔
        s ∈ A ∨ s ∈ idsOf (ClusteringAgent.gatherNearby sc scan A).1 := by
  intro scan
  induction scan with
  | nil => intro A s; simp [ClusteringAgent.gatherNearby, idsOf]
  | cons other rest ih =>
    intro A s
    by_cases hc : A.contains other.id = true
    · simp only [ClusteringAgent.gatherNearby, hc, eq_self_iff_true, if_true, ite_true]
      exact ih A s
    · rw [Bool.not_eq_true] at hc
      rcases hco : other.coordinates with _ | oc
      · simp only [ClusteringAgent.gatherNearby, hc, hco, Bool.false_eq_true, if_false, ite_false]
        exact ih A s
      · by_cases hd : haversineDistance sc oc ≤ 3
        · simp only [ClusteringAgent.gatherNearby, hc, hco, hd, Bool.false_eq_true, if_false, ite_false, eq_self_iff_true, if_true, ite_true]
          rw [ih]
          simp only [idsOf, List.map_cons, List.mem_cons]
          tauto
        · simp only [ClusteringAgent.gatherNearby, hc, hco, hd, Bool.false_eq_true, if_false, ite_false]
          exact ih A s

theorem gather_members_sub (sc : Coord) :
    ∀ (scan : List Location) (A : List String),
      ∀ p ∈ (ClusteringAgent.gatherNearby sc scan A).1, p ∈ scan := by
  intro scan
  induction scan with
  | nil => intro A p hp; exact absurd hp (by simp [ClusteringAgent.gatherNearby])
  | cons other rest ih =>
    intro A p hp
    rw [List.mem_cons]
    by_cases hc : A.contains other.id = true
    · simp only [ClusteringAgent.gatherNearby, hc, eq_self_iff_true, if_true, ite_true] at hp
      exact Or.inr (ih A p hp)
    · rw [Bool.not_eq_true] at hc
      rcases hco : other.coordinates with _ | oc
      · simp only [ClusteringAgent.gatherNearby, hc, hco, Bool.false_eq_true, if_false, ite_false] at hp
        exact Or.inr (ih A p hp)
      · by_cases hd : haversineDistance sc oc ≤ 3
        · simp only [ClusteringAgent.gatherNearby, hc, hco, hd, Bool.false_eq_true, if_false, ite_false, eq_self_iff_true, if_true, ite_true] at hp
          rcases List.mem_cons.mp hp with h | h
          · exact Or.inl h
          · exact Or.inr (ih _ p h)
        · simp only [ClusteringAgent.gatherNearby, hc, hco, hd, Bool.false_eq_true, if_false, ite_false] at hp
          exact Or.inr (ih A p hp)

theorem gather_members_fresh (sc : Coord) :
    ∀ (scan : List Location) (A : List String),
      (∀ s ∈ idsOf (ClusteringAgent.gatherNearby sc scan A).1, s ∉ A) ∧
        (idsOf (ClusteringAgent.gatherNearby sc scan A).1).Nodup := by
  intro scan
  induction scan with
  | nil => intro A; simp [ClusteringAgent.gatherNearby, idsOf]
  | cons other rest ih =>
    intro A
    by_cases hc : A.contains other.id = true
    · simp only [ClusteringAgent.gatherNearby, hc, eq_self_iff_true, if_true, ite_true]
      exact ih A
    · rw [Bool.not_eq_true] at hc
      rcases hco : other.coordinates with _ | oc
      · simp only [ClusteringAgent.gatherNearby, hc, hco, Bool.false_eq_true, if_false, ite_false]
        exact ih A
      · by_cases hd : haversineDistance sc oc ≤ 3
        · simp only [ClusteringAgent.gatherNearby, hc, hco, hd, Bool.false_eq_true, if_false, ite_false, eq_self_iff_true, if_true, ite_true]
          have hfresh := (ih (other.id :: A)).1
          have hnd := (ih (other.id :: A)).2
          constructor
          · intro s hs
            simp only [idsOf, List.map_cons, List.mem_cons] at hs
            rcases hs with rfl | hs
            · exact contains_false_not_mem hc
            · exact fun hmem => hfresh s hs (List.mem_cons_of_mem _ hmem)
          · simp only [idsOf, List.map_cons, List.nodup_cons]
            exact ⟨fun hmem => hfresh other.id hmem (List.mem_cons_self _ _), hnd⟩
        · simp only [ClusteringAgent.gatherNearby, hc, hco, hd, Bool.false_eq_true, if_false, ite_false]
          exact ih A

theorem gather_members_coords (sc : Coord) :
    ∀ (scan : List Location) (A : List String),
      ∀ p ∈ (ClusteringAgent.gatherNearby sc scan A).1, p.coordinates ≠ none := by
  intro scan
  induction scan with
  | nil => intro A p hp; exact absurd hp (by simp [ClusteringAgent.gatherNearby])
  | cons other rest ih =>
    intro A p hp
    by_cases hc : A.contains other.id = true
    · simp only [ClusteringAgent.gatherNearby, hc, eq_self_iff_true, if_true, ite_true] at hp
      exact ih A p hp
    · rw [Bool.not_eq_true] at hc
      rcases hco : other.coordinates with _ | oc
      · simp only [ClusteringAgent.gatherNearby, hc, hco, Bool.false_eq_true, if_false, ite_false] at hp
        exact ih A p hp
      · by_cases hd : haversineDistance sc oc ≤ 3
        · simp only [ClusteringAgent.gatherNearby, hc, hco, hd, Bool.false_eq_true, if_false, ite_false, eq_self_iff_true, if_true, ite_true] at hp
          rcases List.mem_cons.mp hp with rfl | h
          · simp [hco]
          · exact ih _ p h
        · simp only [ClusteringAgent.gatherNearby, hc, hco, hd, Bool.false_eq_true, if_false, ite_false] at hp
          exact ih A p hp

theorem gather_complete (sc : Coord) (all : List Location) (hall : (idsOf all).Nodup) :
    ∀ (scan : List Location) (A : List String), (∀ x ∈ scan, x ∈ all) →
      ∀ p ∈ scan, ∀ pc, p.coordinates = some pc → haversineDistance sc pc ≤ 3 →
        p.id ∉ A → p ∈ (ClusteringAgent.gatherNearby sc scan A).1 := by
  intro scan
  induction scan with
  | nil => intro A _ p hp; exact absurd hp (by simp)
  | cons other rest ih =>
    intro A hsub p hp pc hpc hpd hpA
    have hrsub : ∀ x ∈ rest, x ∈ all := fun x hx => hsub x (List.mem_cons_of_mem _ hx)
    by_cases hc : A.contains other.id = true
    · simp only [ClusteringAgent.gatherNearby, hc, eq_self_iff_true, if_true, ite_true]
      rcases List.mem_cons.mp hp with rfl | h
      · exact absurd (contains_true_mem hc) hpA
      · exact ih A hrsub p h pc hpc hpd hpA
    · rw [Bool.not_eq_true] at hc
      rcases hco : other.coordinates with _ | oc
      · simp only [ClusteringAgent.gatherNearby, hc, hco, Bool.false_eq_true, if_false, ite_false]
        rcases List.mem_cons.mp hp with rfl | h
        · rw [hpc] at hco; exact Option.noConfusion hco
        · exact ih A hrsub p h pc hpc hpd hpA
      · by_cases hd : haversineDistance sc oc ≤ 3
        · simp only [ClusteringAgent.gatherNearby, hc, hco, hd, Bool.false_eq_true, if_false, ite_false, eq_self_iff_true, if_true, ite_true]
          rcases List.mem_cons.mp hp with rfl | h
          · exact List.mem_cons_self _ _
          · by_cases hpid : p.id = other.id
            · have hpe : p = other := List.inj_on_of_nodup_map hall (hsub p hp)
                (hsub other (List.mem_cons_self _ _)) hpid
              rw [hpe]
              exact List.mem_cons_self _ _
            · refine List.mem_cons_of_mem _ (ih (other.id :: A) hrsub p h pc hpc hpd ?_)
              intro hmem
              rcases List.mem_cons.mp hmem with heq | hmem2
              · exact hpid heq
              · exact hpA hmem2
        · simp only [ClusteringAgent.gatherNearby, hc, hco, hd, Bool.false_eq_true, if_false, ite_false]
          rcases List.mem_cons.mp hp with rfl | h
          · rw [hpc] at hco
            cases hco
            exact absurd hpd hd
          · exact ih A hrsub p h pc hpc hpd hpA

theorem countP_eq_count_idsOf (M : List Location) (s : String) :
    M.countP (fun q => decide (q.id = s)) = (idsOf M).count s := by
  induction M with
  | nil => rfl
  | cons q t ih =>
    simp only [List.countP_cons, idsOf, List.map_cons, List.count_cons, ih]
    by_cases h : q.id = s
    · simp [h]
    · simp [h]

theorem countP_members_one {M : List Location} {s : String} (hnd : (idsOf M).Nodup)
    (hmem : s ∈ idsOf M) : M.countP (fun q => decide (q.id = s)) = 1 := by
  rw [countP_eq_count_idsOf]
  exact List.count_eq_one_of_mem hnd hmem

theorem countP_members_zero {M : List Location} {s : String} (hmem : s ∉ idsOf M) :
    M.countP (fun q => decide (q.id = s)) = 0 := by
  rw [countP_eq_count_idsOf]
  exact List.count_eq_zero.mpr hmem

theorem clusterLoop_assigned_countP (all : List Location) :
    ∀ (pending : List Location) (A : List String) (idx : ℕ) (s : String), s ∈ A →
      ((ClusteringAgent.clusterLoop all pending A idx).flatMap ClusterGroup.locations).countP
        (fun q => decide (q.id = s)) = 0 := by
  intro pending
  induction pending with
  | nil => intro A idx s _; rfl
  | cons l rest ih =>
    intro A idx s hs
    by_cases hc : A.contains l.id = true
    · simp only [ClusteringAgent.clusterLoop, hc, eq_self_iff_true, if_true, ite_true]
      exact ih A idx s hs
    · rw [Bool.not_eq_true] at hc
      rcases hco : l.coordinates with _ | lc
      · simp only [ClusteringAgent.clusterLoop, hc, hco, Bool.false_eq_true, if_false, ite_false]
        exact ih A idx s hs
      · simp only [ClusteringAgent.clusterLoop, hc, hco, Bool.false_eq_true, if_false, ite_false,
          List.flatMap_cons, List.countP_append]
        have hlid : l.id ∉ A := contains_false_not_mem hc
        have hnotin : s ∉ idsOf (l :: (ClusteringAgent.gatherNearby lc all (l.id :: A)).1) := by
          intro hmem
          simp only [idsOf, List.map_cons, List.mem_cons] at hmem
          rcases hmem with heq | hmem
          · exact hlid (heq ▸ hs)
          · exact (gather_members_fresh lc all (l.id :: A)).1 s hmem
              (List.mem_cons_of_mem _ hs)
        rw [countP_members_zero hnotin, ih _ (idx + 1) s
          (gather_assigned_mono lc all (l.id :: A) s (List.mem_cons_of_mem _ hs))]

theorem clusterLoop_count (all : List Location) (hall : (idsOf all).Nodup) :
    ∀ (pending : List Location) (A : List String) (idx : ℕ), (∀ x ∈ pending, x ∈ all) →
      ∀ p ∈ all, p.coordinates ≠ none → p.id ∉ A → p ∈ pending →
        ((ClusteringAgent.clusterLoop all pending A idx).flatMap ClusterGroup.locations).countP
          (fun q => decide (q.id = p.id)) = 1 := by
  intro pending
  induction pending with
  | nil => intro A idx _ p _ _ _ hp; exact absurd hp (by simp)
  | cons l rest ih =>
    intro A idx hsub p hpall hpco hpA hp
    have hrsub : ∀ x ∈ rest, x ∈ all := fun x hx => hsub x (List.mem_cons_of_mem _ hx)
    by_cases hc : A.contains l.id = true
    · simp only [ClusteringAgent.clusterLoop, hc, eq_self_iff_true, if_true, ite_true]
      rcases List.mem_cons.mp hp with rfl | h
      · exact absurd (contains_true_mem hc) hpA
      · exact ih A idx hrsub p hpall hpco hpA h
    · rw [Bool.not_eq_true] at hc
      rcases hco : l.coordinates with _ | lc
      · simp only [ClusteringAgent.clusterLoop, hc, hco, Bool.false_eq_true, if_false, ite_false]
        rcases List.mem_cons.mp hp with rfl | h
        · exact absurd hco hpco
        · exact ih A idx hrsub p hpall hpco hpA h
      · simp only [ClusteringAgent.clusterLoop, hc, hco, Bool.false_eq_true, if_false, ite_false,
          List.flatMap_cons, List.countP_append]
        have hfresh := (gather_members_fresh lc all (l.id :: A)).1
        have hnd := (gather_members_fresh lc all (l.id :: A)).2
        have hmnd : (idsOf (l :: (ClusteringAgent.gatherNearby lc all (l.id :: A)).1)).Nodup := by
          simp only [idsOf, List.map_cons, List.nodup_cons]
          exact ⟨fun hmem => hfresh l.id hmem (List.mem_cons_self _ _), hnd⟩
        by_cases hmem : p.id ∈ idsOf (l :: (ClusteringAgent.gatherNearby lc all (l.id :: A)).1)
        · rw [countP_members_one hmnd hmem]
          have hA2 : p.id ∈ (ClusteringAgent.gatherNearby lc all (l.id :: A)).2 := by
            rw [gather_assigned_iff]
            simp only [idsOf, List.map_cons, List.mem_cons] at hmem
            rcases hmem with heq | hmem
            · exact Or.inl (heq ▸ List.mem_cons_self _ _)
            · exact Or.inr hmem
          rw [clusterLoop_assigned_countP all rest _ (idx + 1) p.id hA2]
        · rw [countP_members_zero hmem]
          have hpl : p ≠ l := by
            intro heq
            apply hmem
            simp only [idsOf, List.map_cons, List.mem_cons]
            exact Or.inl (by rw [heq])
          have hprest : p ∈ rest := by
            rcases List.mem_cons.mp hp with heq | h
            · exact absurd heq hpl
            · exact h
          have hpA2 : p.id ∉ (ClusteringAgent.gatherNearby lc all (l.id :: A)).2 := by
            rw [gather_assigned_iff]
            intro hcon
            rcases hcon with hcon | hcon
            · rcases List.mem_cons.mp hcon with heq | hcon2
              · exact hpl (List.inj_on_of_nodup_map hall hpall
                  (hsub l (List.mem_cons_self _ _)) heq)
              · exact hpA hcon2
            · exact hmem (by
                simp only [idsOf, List.map_cons, List.mem_cons]
                exact Or.inr hcon)
          rw [ih _ (idx + 1) hrsub p hpall hpco hpA2 hprest]

theorem clusterLoop_none_not_mem (all : List Location) :
    ∀ (pending : List Location) (A : List String) (idx : ℕ) (p : Location),
      p.coordinates = none →
      ∀ c ∈ ClusteringAgent.clusterLoop all pending A idx, p ∉ c.locations := by
  intro pending
  induction pending with
  | nil => intro A idx p _ c hc; exact absurd hc (by simp [ClusteringAgent.clusterLoop])
  | cons l rest ih =>
    intro A idx p hpco c hcmem
    by_cases hc : A.contains l.id = true
    · simp only [ClusteringAgent.clusterLoop, hc, eq_self_iff_true, if_true, ite_true] at hcmem
      exact ih A idx p hpco c hcmem
    · rw [Bool.not_eq_true] at hc
      rcases hco : l.coordinates with _ | lc
      · simp only [ClusteringAgent.clusterLoop, hc, hco, Bool.false_eq_true, if_false,
          ite_false] at hcmem
        exact ih A idx p hpco c hcmem
      · simp only [ClusteringAgent.clusterLoop, hc, hco, Bool.false_eq_true, if_false,
          ite_false] at hcmem
        rcases List.mem_cons.mp hcmem with rfl | hcmem2
        · intro hpmem
          rcases List.mem_cons.mp hpmem with rfl | hpmem2
          · rw [hco] at hpco
            exact Option.noConfusion hpco
          · exact gather_members_coords lc all _ p hpmem2 hpco
        · exact ih _ (idx + 1) p hpco c hcmem2

theorem clusterLoop_members_sub (all : List Location) :
    ∀ (pending : List Location) (A : List String) (idx : ℕ), (∀ x ∈ pending, x ∈ all) →
      ∀ c ∈ ClusteringAgent.clusterLoop all pending A idx, ∀ q ∈ c.locations, q ∈ all := by
  intro pending
  induction pending with
  | nil => intro A idx _ c hc; exact absurd hc (by simp [ClusteringAgent.clusterLoop])
  | cons l rest ih =>
    intro A idx hsub c hcmem q hq
    have hrsub : ∀ x ∈ rest, x ∈ all := fun x hx => hsub x (List.mem_cons_of_mem _ hx)
    by_cases hc : A.contains l.id = true
    · simp only [ClusteringAgent.clusterLoop, hc, eq_self_iff_true, if_true, ite_true] at hcmem
      exact ih A idx hrsub c hcmem q hq
    · rw [Bool.not_eq_true] at hc
      rcases hco : l.coordinates with _ | lc
      · simp only [ClusteringAgent.clusterLoop, hc, hco, Bool.false_eq_true, if_false,
          ite_false] at hcmem
        exact ih A idx hrsub c hcmem q hq
      · simp only [ClusteringAgent.clusterLoop, hc, hco, Bool.false_eq_true, if_false,
          ite_false] at hcmem
        rcases List.mem_cons.mp hcmem with rfl | hcmem2
        · rcases List.mem_cons.mp hq with rfl | hq2
          · exact hsub q (List.mem_cons_self _ _)
          · exact gather_members_sub lc all _ q hq2
        · exact ih _ (idx + 1) hrsub c hcmem2 q hq

theorem clusterLoop_radius (all : List Location) (hall : (idsOf all).Nodup) :
    ∀ (pending : List Location) (A : List String) (idx : ℕ), (∀ x ∈ pending, x ∈ all) →
      ∀ (k : ℕ) (c : ClusterGroup),
        (ClusteringAgent.clusterLoop all pending A idx)[k]? = some c →
        ∀ (s : Location) (sc : Coord) (p : Location) (pc : Coord),
          c.locations.head? = some s → s.coordinates = some sc →
          p ∈ all → p.coordinates = some pc → haversineDistance sc pc ≤ 3 → p.id ∉ A →
          p ∉ ((ClusteringAgent.clusterLoop all pending A idx).take k).flatMap
            ClusterGroup.locations →
          p ∈ c.locations := by
  intro pending
  induction pending with
  | nil =>
    intro A idx _ k c hkc
    exact absurd hkc (by simp [ClusteringAgent.clusterLoop])
  | cons l rest ih =>
    intro A idx hsub k c hkc s sc p pc hhead hsc hpall hpc hdist hpA hptake
    have hrsub : ∀ x ∈ rest, x ∈ all := fun x hx => hsub x (List.mem_cons_of_mem _ hx)
    by_cases hcnt : A.contains l.id = true
    · simp only [ClusteringAgent.clusterLoop, hcnt, eq_self_iff_true, if_true, ite_true]
        at hkc hptake
      exact ih A idx hrsub k c hkc s sc p pc hhead hsc hpall hpc hdist hpA hptake
    · rw [Bool.not_eq_true] at hcnt
      rcases hco : l.coordinates with _ | lc
      · simp only [ClusteringAgent.clusterLoop, hcnt, hco, Bool.false_eq_true, if_false,
          ite_false] at hkc hptake
        exact ih A idx hrsub k c hkc s sc p pc hhead hsc hpall hpc hdist hpA hptake
      · simp only [ClusteringAgent.clusterLoop, hcnt, hco, Bool.false_eq_true, if_false,
          ite_false] at hkc hptake
        cases k with
        | zero =>
          rw [List.getElem?_cons_zero] at hkc
          cases hkc
          simp only [List.head?_cons] at hhead
          cases hhead
          rw [hco] at hsc
          cases hsc
          by_cases hpl : p = l
          · rw [hpl]
            exact List.mem_cons_self _ _
          · have hpid : p.id ∉ (l.id :: A) := by
              intro hmem
              rcases List.mem_cons.mp hmem with heq | hmem2
              · exact hpl (List.inj_on_of_nodup_map hall hpall
                  (hsub l (List.mem_cons_self _ _)) heq)
              · exact hpA hmem2
            exact List.mem_cons_of_mem _
              (gather_complete sc all hall all (l.id :: A) (fun x hx => hx) p hpall pc hpc
                hdist hpid)
        | succ j =>
          rw [List.getElem?_cons_succ] at hkc
          rw [List.take_succ_cons, List.flatMap_cons] at hptake
          have hpC0 : p ∉ (l :: (ClusteringAgent.gatherNearby lc all (l.id :: A)).1) := by
            intro hmem
            exact hptake (List.mem_append_left _ hmem)
          have hptake2 : p ∉ ((ClusteringAgent.clusterLoop all rest
              (ClusteringAgent.gatherNearby lc all (l.id :: A)).2 (idx + 1)).take j).flatMap
              ClusterGroup.locations := by
            intro hmem
            exact hptake (List.mem_append_right _ hmem)
          have hpA2 : p.id ∉ (ClusteringAgent.gatherNearby lc all (l.id :: A)).2 := by
            rw [gather_assigned_iff]
            intro hcon
            rcases hcon with hcon | hcon
            · rcases List.mem_cons.mp hcon with heq | hcon2
              · exact hpC0 ((List.inj_on_of_nodup_map hall hpall
                  (hsub l (List.mem_cons_self _ _)) heq) ▸ List.mem_cons_self _ _)
              · exact hpA hcon2
            · obtain ⟨x, hx, hxid⟩ := List.mem_map.mp hcon
              have hxall : x ∈ all := gather_members_sub lc all _ x hx
              have hxp : x = p := List.inj_on_of_nodup_map hall hxall hpall hxid
              exact hpC0 (List.mem_cons_of_mem _ (hxp ▸ hx))
          exact ih _ (idx + 1) hrsub j c hkc s sc p pc hhead hsc hpall hpc hdist hpA2 hptake2

theorem haversine_self (c : Coord) : haversineDistance c c = 0 := by
  simp only [haversineDistance, toRad]
  have h1 : (c.lat - c.lat) * (Real.pi / 180) / 2 = 0 := by ring
  have h2 : (c.lng - c.lng) * (Real.pi / 180) / 2 = 0 := by ring
  rw [h1, h2, Real.sin_zero]
  have ha : (0:ℝ) * 0 + Real.cos (c.lat * (Real.pi / 180)) *
      Real.cos (c.lat * (Real.pi / 180)) * (0 * 0) = 0 := by ring
  rw [ha]
  rw [Real.sqrt_zero]
  have hb : (1:ℝ) - 0 = 1 := by norm_num
  rw [hb, Real.sqrt_one]
  have hat : atan2 0 1 = 0 := by
    rw [atan2, if_pos (by norm_num : (0:ℝ) < 1)]
    norm_num [Real.arctan_zero]
  rw [hat]
  ring

theorem haversine_comm (c1 c2 : Coord) :
    haversineDistance c1 c2 = haversineDistance c2 c1 := by
  simp only [haversineDistance, toRad]
  have key : Real.sin ((c2.lat - c1.lat) * (Real.pi / 180) / 2) *
      Real.sin ((c2.lat - c1.lat) * (Real.pi / 180) / 2) +
      Real.cos (c1.lat * (Real.pi / 180)) * Real.cos (c2.lat * (Real.pi / 180)) *
      (Real.sin ((c2.lng - c1.lng) * (Real.pi / 180) / 2) *
        Real.sin ((c2.lng - c1.lng) * (Real.pi / 180) / 2)) =
      Real.sin ((c1.lat - c2.lat) * (Real.pi / 180) / 2) *
      Real.sin ((c1.lat - c2.lat) * (Real.pi / 180) / 2) +
      Real.cos (c2.lat * (Real.pi / 180)) * Real.cos (c1.lat * (Real.pi / 180)) *
      (Real.sin ((c1.lng - c2.lng) * (Real.pi / 180) / 2) *
        Real.sin ((c1.lng - c2.lng) * (Real.pi / 180) / 2)) := by
    have e1 : (c1.lat - c2.lat) * (Real.pi / 180) / 2 =
        -((c2.lat - c1.lat) * (Real.pi / 180) / 2) := by ring
    have e2 : (c1.lng - c2.lng) * (Real.pi / 180) / 2 =
        -((c2.lng - c1.lng) * (Real.pi / 180) / 2) := by ring
    rw [e1, e2, Real.sin_neg, Real.sin_neg]
    ring
  rw [key]

theorem haversine_equator (l1 l2 : ℝ) (h0 : 0 ≤ l2 - l1) (h1 : l2 - l1 ≤ 1) :
    haversineDistance ⟨0, l1⟩ ⟨0, l2⟩ = 6371 * ((l2 - l1) * Real.pi / 180) := by
  have hpi := Real.pi_pos
  simp only [haversineDistance, toRad]
  have e0 : ((0:ℝ) - 0) * (Real.pi / 180) / 2 = 0 := by ring
  have ez : (0:ℝ) * (Real.pi / 180) = 0 := by ring
  rw [e0, ez, Real.sin_zero, Real.cos_zero]
  set x := (l2 - l1) * (Real.pi / 180) / 2 with hxdef
  have hx0 : 0 ≤ x := by
    rw [hxdef]
    have := mul_nonneg h0 (le_of_lt (by positivity : (0:ℝ) < Real.pi / 180))
    linarith
  have hxle : x ≤ Real.pi / 360 := by
    rw [hxdef]
    nlinarith
  have hxlt : x < Real.pi / 2 := lt_of_le_of_lt hxle (by nlinarith)
  have hxpi : x ≤ Real.pi := le_trans hxle (by nlinarith)
  have hsin0 : 0 ≤ Real.sin x := Real.sin_nonneg_of_nonneg_of_le_pi hx0 hxpi
  have hcos : 0 < Real.cos x := Real.cos_pos_of_mem_Ioo ⟨by linarith, hxlt⟩
  have ha : (0:ℝ) * 0 + 1 * 1 * (Real.sin x * Real.sin x) = Real.sin x * Real.sin x := by
    ring
  rw [ha, Real.sqrt_mul_self hsin0]
  have h1s : 1 - Real.sin x * Real.sin x = Real.cos x * Real.cos x := by
    have hh := Real.sin_sq_add_cos_sq x
    nlinarith
  rw [h1s, Real.sqrt_mul_self (le_of_lt hcos)]
  have hat : atan2 (Real.sin x) (Real.cos x) = x := by
    rw [atan2, if_pos hcos, ← Real.tan_eq_sin_div_cos]
    exact Real.arctan_tan (by linarith) hxlt
  rw [hat, hxdef]
  ring

/-! ### Claim theorems -/

unseal Rat.mul Rat.add Rat.sub Rat.inv Rat.ofScientific in
/-- **C2 counterexample.** The claim states `isOverBudget = false` whenever
`total ≤ dailyBudget * numDays`. With the flat `preferences.budget` (the only
budget field the code has) standing for the spec's `dailyBudget`: for one
cost-500 location, budget 400 and `numDays = 2`, the total 500 is within
`400 * 2`, yet the code reports over-budget with overage 100 — the comparison
in `BudgetAgent.process` is `total > preferences.budget`, never multiplied by
`numDays`. -/
theorem checkBudget_numDays_counterexample :
    (BudgetAgent.calculateBreakdown c2locs 2).total ≤ (mkPrefs 400).budget * 2 ∧
    (BudgetAgent.process c2locs (mkPrefs 400) 2).isOverBudget = true ∧
    (BudgetAgent.process c2locs (mkPrefs 400) 2).overageAmount = 100 := by
  decide

/-- **C2 (amended).** `BudgetAgent.process` reports `isOverBudget = false` and
`overageAmount = 0` exactly when the breakdown total is at most the flat
`preferences.budget` (no `* numDays`); the boundary case of equality is not
over budget. -/
theorem checkBudget_within_flat_budget (locations : List Location)
    (preferences : TripPreferences) (numDays : ℕ)
    (h : (BudgetAgent.calculateBreakdown locations numDays).total ≤ preferences.budget) :
    (BudgetAgent.process locations preferences numDays).isOverBudget = false ∧
    (BudgetAgent.process locations preferences numDays).overageAmount = 0 := by
  have hlt : ¬ (preferences.budget < (BudgetAgent.calculateBreakdown locations numDays).total) :=
    not_lt.mpr h
  have hmax : max (0 : ℚ)
      ((BudgetAgent.calculateBreakdown locations numDays).total - preferences.budget) = 0 :=
    max_eq_left (sub_nonpos.mpr h)
  simp [BudgetAgent.process, hlt, hmax]

unseal Rat.mul Rat.add Rat.sub Rat.inv Rat.ofScientific in
/-- **C2 witness**: the boundary instance `total = budget` (total is exactly
500 for `c2locs`) is reported as not over budget. -/
theorem checkBudget_within_flat_budget_witness :
    (BudgetAgent.calculateBreakdown c2locs 2).total ≤ (mkPrefs 500).budget ∧
    ((BudgetAgent.process c2locs (mkPrefs 500) 2).isOverBudget = false ∧
      (BudgetAgent.process c2locs (mkPrefs 500) 2).overageAmount = 0) :=
  ⟨by decide, checkBudget_within_flat_budget c2locs (mkPrefs 500) 2 (by decide)⟩

/-- **C3 counterexample.** A day holding exactly one restaurant with the clock
starting at 09:00 emits its slot at 09:00, not at or after 12:00: the meal
snap in `adjustForMealTime` fires only when the clock already sits in
[11:00,12:00) or [17:00,18:00), and 09:00 is in neither. -/
theorem single_restaurant_start_counterexample :
    ((TimeAgent.createDaySchedule [c3restaurant] 0 (mkPrefs 500)).slots.map
      (fun s => s.startTime)) = ["09:00"] ∧
    timeToMinutes "09:00" < 12 * 60 := by
  decide

/-- **C3 (amended).** For a day containing exactly one restaurant POI and a
09:00 day start, the emitted slot starts exactly at the day start, 09:00
(the 12:00 snap would require the running clock to reach [11:00,12:00)). -/
theorem single_restaurant_starts_at_day_start (r : Location) (preferences : TripPreferences)
    (hr : r.type = .restaurant) (hs : preferences.startTime = some "09:00") :
    ((TimeAgent.createDaySchedule [r] 0 preferences).slots.map (fun s => s.startTime)) =
      ["09:00"] := by
  have hne : ("09:00" : String) ≠ "" := by decide
  have hparse : (((parseIntNat ((splitColon "09:00").headD "")).getD 0 : ℕ) : ℤ) = 9 := by decide
  have hparse2 : (parseIntNat ((splitColon "09:00").head?.getD "")).getD 0 = 9 := by decide
  have hsort : TimeAgent.sortByOptimalTime [r] = [r] := rfl
  have hmeal : TimeAgent.adjustForMealTime r 540 = (false, 540) := by
    norm_num [TimeAgent.adjustForMealTime, hr, show Int.fdiv 540 60 = 9 from by decide]
  have hmin : TimeAgent.minutesToTime 540 = "09:00" := by decide
  norm_num [TimeAgent.createDaySchedule, hs, hne, hparse, hparse2, hsort,
    TimeAgent.scheduleWalk, hmeal, hmin]

/-- **C3 witness** for the amended claim at the concrete single-restaurant
day. -/
theorem single_restaurant_starts_at_day_start_witness :
    c3restaurant.type = .restaurant ∧ (mkPrefs 500).startTime = some "09:00" ∧
    ((TimeAgent.createDaySchedule [c3restaurant] 0 (mkPrefs 500)).slots.map
      (fun s => s.startTime)) = ["09:00"] :=
  ⟨by decide, by decide,
    single_restaurant_starts_at_day_start c3restaurant (mkPrefs 500) (by decide) (by decide)⟩

/-- **C10.** The scheduler never consults the configured day end time — its
output is invariant under arbitrary changes of `preferences.endTime` — and the
running clock advances unboundedly past it: on a 13-stop day starting 09:00
(end time "21:00"), the 13th slot is rendered "23:20"–"00:05", whose end-time
string is numerically earlier in the day than its start because
`minutesToTime` reduces the hour modulo 24; the final clock (09:00 +
totalDuration = 24:05) is far past the 21:00 day end. -/
theorem scheduler_ignores_day_end_time :
    (∀ (locations : List Location) (dayIndex : ℕ) (preferences : TripPreferences)
      (e : Option String),
      TimeAgent.createDaySchedule locations dayIndex { preferences with endTime := e } =
        TimeAgent.createDaySchedule locations dayIndex preferences) ∧
    ((TimeAgent.createDaySchedule c10pois 0 (mkPrefs 500)).slots.map
      (fun s => (s.startTime, s.endTime)))[12]? = some ("23:20", "00:05") ∧
    timeToMinutes "00:05" < timeToMinutes "23:20" ∧
    21 * 60 < 9 * 60 + (TimeAgent.createDaySchedule c10pois 0 (mkPrefs 500)).totalDuration := by
  refine ⟨?_, by decide, by decide, by decide⟩
  intro locations dayIndex preferences e
  cases preferences
  rfl

unseal Rat.mul Rat.add Rat.sub Rat.inv Rat.ofScientific in
/-- **C1 (code evaluated at the failing input).** For `c1locs` under budget 50:
the budget agent is over budget and its optimization removes "loc-1", so the
adjusted set passed onward as `budgetLocations` is exactly
loc-2 … loc-6 — yet every emitted time slot references precisely "loc-1",
because `TimeAgent.process` ignores its `locations` argument and schedules
`clusters.flatMap(c => c.locations)`, computed before the budget step (and the
five coordinate-less locations never enter any cluster). -/
theorem scheduler_uses_preBudget_clusters :
    ((Orchestrator.stages567 c1locs (mkPrefs 50)).1.optimization.map
      (fun o => o.remove.map (fun r => r.1.id))) = some ["loc-1"] ∧
    ((Orchestrator.stages567 c1locs (mkPrefs 50)).1.adjustedLocations.map idsOf) =
      some ["loc-2", "loc-3", "loc-4", "loc-5", "loc-6"] ∧
    ((Orchestrator.stages567 c1locs (mkPrefs 50)).2.2.schedules.flatMap
      (fun s => s.slots.map (fun t => t.locationId))) = ["loc-1"] := by
  decide

/-- **C8.** The deterministic budget-optimization fallback is a pure function
(identical inputs give identical keep/replace/remove lists), and locations
with equal `estimatedCost || 0` are processed in their original list order:
for every cost value `c`, the cost-descending sort used by
`simpleOptimization` preserves the input order of the locations of cost `c`
(stable tie-breaking by input position). -/
theorem simpleOptimization_deterministic_stable (locations : List Location)
    (currentTotal targetBudget : ℚ) :
    BudgetAgent.simpleOptimization locations currentTotal targetBudget =
      BudgetAgent.simpleOptimization locations currentTotal targetBudget ∧
    ∀ c : ℚ,
      (sortOn (fun l => -(BudgetAgent.cut l)) locations).filter
        (fun l => decide (BudgetAgent.cut l = c)) =
      locations.filter (fun l => decide (BudgetAgent.cut l = c)) := by
  refine ⟨rfl, fun c => ?_⟩
  have hcong : ∀ l' : List Location,
      l'.filter (fun l => decide (-(BudgetAgent.cut l) = -c)) =
        l'.filter (fun l => decide (BudgetAgent.cut l = c)) := by
    intro l'
    exact List.filter_congr (fun x _ => by simp)
  have h := sortOn_filter_stable (fun l => -(BudgetAgent.cut l)) locations (-c)
  rw [hcong, hcong] at h
  exact h

/-- **C9 counterexample.** The spec says the centroid returns a
*caller-supplied* default on empty input. Neither implementation takes one:
`LocationAgent.calculateCentroid []` is the hardcoded Tokyo point, so no
caller choice (here `⟨1, 1⟩`) is honoured. -/
theorem centroid_default_not_caller_supplied :
    ¬ ∀ (d : Coord) (points : List Coord),
        LocationAgent.calculateCentroid points = centroidSpec d points := by
  intro h
  have h1 := h ⟨1, 1⟩ []
  have hl := congrArg Coord.lat h1
  simp [LocationAgent.calculateCentroid, centroidSpec] at hl
  norm_num at hl

/-- **C9 (amended).** On empty input each centroid implementation returns its
own *hardcoded* default — `{lat: 35.6762, lng: 139.6503}` (Tokyo) in the
LocationAgent, `{lat: 0, lng: 0}` in the ClusteringAgent (whose empty case is
"no member has coordinates") — and on non-empty input both return the
arithmetic mean of the latitudes and longitudes (of the coordinate-bearing
members, for the ClusteringAgent). -/
theorem centroid_hardcoded_default_and_mean :
    LocationAgent.calculateCentroid [] = ⟨35.6762, 139.6503⟩ ∧
    (∀ locs : List Location, locs.filterMap Location.coordinates = [] →
      ClusteringAgent.calculateCentroid locs = ⟨0, 0⟩) ∧
    (∀ points : List Coord, points ≠ [] →
      LocationAgent.calculateCentroid points =
        ⟨(points.map Coord.lat).sum / points.length,
          (points.map Coord.lng).sum / points.length⟩) ∧
    (∀ locs : List Location, locs.filterMap Location.coordinates ≠ [] →
      ClusteringAgent.calculateCentroid locs =
        ⟨((locs.filterMap Location.coordinates).map Coord.lat).sum /
            (locs.filterMap Location.coordinates).length,
          ((locs.filterMap Location.coordinates).map Coord.lng).sum /
            (locs.filterMap Location.coordinates).length⟩) := by
  refine ⟨rfl, ?_, ?_, ?_⟩
  · intro locs hf
    simp [ClusteringAgent.calculateCentroid, hf]
  · intro points hp
    cases points with
    | nil => exact absurd rfl hp
    | cons c t =>
      simp only [LocationAgent.calculateCentroid, coordFold_eq_sum]
      simp
  · intro locs hf
    have hlen : (locs.filterMap Location.coordinates).length ≠ 0 := by
      simpa [List.length_eq_zero] using hf
    simp only [ClusteringAgent.calculateCentroid, coordFold_eq_sum, if_neg hlen]
    simp

/-- **C9 witness** for the amended claim: the mean of the single point (2,4)
and the empty-case defaults, at concrete inputs. -/
theorem centroid_hardcoded_default_and_mean_witness :
    c9points ≠ [] ∧
    LocationAgent.calculateCentroid c9points =
      ⟨(c9points.map Coord.lat).sum / c9points.length,
        (c9points.map Coord.lng).sum / c9points.length⟩ :=
  ⟨by simp [c9points], centroid_hardcoded_default_and_mean.2.2.1 c9points (by simp [c9points])⟩

/-- **C6.** `optimizeClusterOrder` (the intra-cluster router) returns a
permutation of its input for every location sequence, with or without
coordinates: the multiset of POI ids is preserved exactly. -/
theorem routeWithinCluster_permutes_ids (locations : List Location) :
    (↑((ClusteringAgent.optimizeClusterOrder locations).map Location.id) : Multiset String) =
      ↑(locations.map Location.id) :=
  Multiset.coe_eq_coe.mpr ((optimizeClusterOrder_perm locations).map Location.id)

/-- **C7.** For every cluster list, preferences and `numDays ≥ 1`,
`TimeAgent.process` emits no empty `DaySchedule` (empty day chunks are
skipped, and every emitted schedule has one slot per chunk location), and the
emitted day chunks together cover the ordered input exactly: the total number
of slots equals the length of `clusters.flatMap(c => c.locations)`. -/
theorem day_allocation_no_empty_and_exact (clusters : List ClusterGroup)
    (locations : List Location) (preferences : TripPreferences) (numDays : ℕ)
    (h : 1 ≤ numDays) :
    (∀ s ∈ (TimeAgent.process clusters locations preferences numDays).schedules,
      s.slots ≠ []) ∧
    ((TimeAgent.process clusters locations preferences numDays).schedules.map
      (fun s => s.slots.length)).sum = (clusters.flatMap ClusterGroup.locations).length := by
  simp only [TimeAgent.process]
  constructor
  · intro s hs
    simp only [List.map_map, List.mem_map, List.mem_filterMap, Function.comp] at hs
    obtain ⟨p, ⟨day, hday, hsome⟩, hps⟩ := hs
    by_cases hz : (TimeAgent.dayChunk (clusters.flatMap ClusterGroup.locations)
        (((clusters.flatMap ClusterGroup.locations).length + numDays - 1) / numDays)
        day).length = 0
    · rw [if_pos hz] at hsome
      exact absurd hsome (by simp)
    · rw [if_neg hz] at hsome
      cases hsome
      have hx : TimeAgent.createDaySchedule
          (TimeAgent.dayChunk (clusters.flatMap ClusterGroup.locations)
            (((clusters.flatMap ClusterGroup.locations).length + numDays - 1) / numDays) day)
          day preferences = s := hps
      intro hnil
      apply hz
      rw [← createDaySchedule_slots_length _ day preferences, hx, hnil]
      rfl
  · simp only [List.map_map, Function.comp_def]
    rw [filterMap_day_sum, sum_dayChunk_lengths _ numDays _
      (lpd_covers (clusters.flatMap ClusterGroup.locations).length numDays h)]

/-- **C7 witness**: one cluster with three locations over two days. -/
theorem day_allocation_no_empty_and_exact_witness :
    (1 : ℕ) ≤ 2 ∧
    ((∀ s ∈ (TimeAgent.process c7clusters [] (mkPrefs 500) 2).schedules, s.slots ≠ []) ∧
      ((TimeAgent.process c7clusters [] (mkPrefs 500) 2).schedules.map
        (fun s => s.slots.length)).sum = (c7clusters.flatMap ClusterGroup.locations).length) :=
  ⟨by decide, day_allocation_no_empty_and_exact c7clusters [] (mkPrefs 500) 2 (by decide)⟩

/-- **C4.** Under the data-model invariant that ids are unique,
`clusterByProximity` partitions the coordinate-bearing input exactly: every
coordinate-bearing POI occurs exactly once across all cluster member lists
(counted by id — no duplicates, none dropped), every POI without coordinates
occurs in no cluster, and cluster members all come from the input. -/
theorem clusterByProximity_partitions (pois : List Location)
    (h : (pois.map Location.id).Nodup) :
    (∀ p ∈ pois, p.coordinates ≠ none →
      ((ClusteringAgent.clusterByProximity pois).flatMap ClusterGroup.locations).countP
        (fun q => decide (q.id = p.id)) = 1) ∧
    (∀ p ∈ pois, p.coordinates = none →
      ∀ c ∈ ClusteringAgent.clusterByProximity pois, p ∉ c.locations) ∧
    (∀ c ∈ ClusteringAgent.clusterByProximity pois, ∀ q ∈ c.locations, q ∈ pois) := by
  have hall : (idsOf pois).Nodup := h
  refine ⟨?_, ?_, ?_⟩
  · intro p hp hpco
    exact clusterLoop_count pois hall pois [] 0 (fun x hx => hx) p hp hpco (by simp) hp
  · intro p hp hpco c hcm
    exact clusterLoop_none_not_mem pois pois [] 0 p hpco c hcm
  · intro c hcm q hq
    exact clusterLoop_members_sub pois pois [] 0 (fun x hx => hx) c hcm q hq

/-- **C4 witness** at the one-location input `[c4loc]`. -/
theorem clusterByProximity_partitions_witness :
    ([c4loc].map Location.id).Nodup ∧
    ((∀ p ∈ [c4loc], p.coordinates ≠ none →
      ((ClusteringAgent.clusterByProximity [c4loc]).flatMap ClusterGroup.locations).countP
        (fun q => decide (q.id = p.id)) = 1) ∧
    (∀ p ∈ [c4loc], p.coordinates = none →
      ∀ c ∈ ClusteringAgent.clusterByProximity [c4loc], p ∉ c.locations) ∧
    (∀ c ∈ ClusteringAgent.clusterByProximity [c4loc], ∀ q ∈ c.locations, q ∈ [c4loc])) :=
  ⟨by decide, clusterByProximity_partitions [c4loc] (by decide)⟩

/-- **C5 (amended).** For a cluster `c` of the output with seed `s` (its first
member): any two coordinate-bearing input POIs within 3 km of the seed that
are *not members of an earlier cluster* are both members of `c` itself. (The
original claim, without the earlier-cluster proviso, is refuted by
`cluster_same_radius_counterexample`.) Ids are assumed unique per the data
model. -/
theorem cluster_same_radius_unassigned (pois : List Location)
    (h : (pois.map Location.id).Nodup) (k : ℕ) (c : ClusterGroup)
    (hc : (ClusteringAgent.clusterByProximity pois)[k]? = some c)
    (s p q : Location) (scoord pcoord qcoord : Coord)
    (hhead : c.locations.head? = some s) (hs : s.coordinates = some scoord)
    (hp : p ∈ pois) (hpc : p.coordinates = some pcoord)
    (hq : q ∈ pois) (hqc : q.coordinates = some qcoord)
    (hdp : haversineDistance scoord pcoord ≤ 3)
    (hdq : haversineDistance scoord qcoord ≤ 3)
    (hpe : p ∉ ((ClusteringAgent.clusterByProximity pois).take k).flatMap
      ClusterGroup.locations)
    (hqe : q ∉ ((ClusteringAgent.clusterByProximity pois).take k).flatMap
      ClusterGroup.locations) :
    p ∈ c.locations ∧ q ∈ c.locations :=
  ⟨clusterLoop_radius pois h pois [] 0 (fun x hx => hx) k c hc s scoord p pcoord hhead hs hp
      hpc hdp (by simp) hpe,
    clusterLoop_radius pois h pois [] 0 (fun x hx => hx) k c hc s scoord q qcoord hhead hs hq
      hqc hdq (by simp) hqe⟩

/-- **C5 witness** for the amended claim at the one-location input. -/
theorem cluster_same_radius_unassigned_witness :
    ([c4loc].map Location.id).Nodup ∧
    (ClusteringAgent.clusterByProximity [c4loc])[0]? = some c4cluster ∧
    c4cluster.locations.head? = some c4loc ∧
    c4loc.coordinates = some ⟨0, 0⟩ ∧
    c4loc ∈ [c4loc] ∧
    haversineDistance ⟨0, 0⟩ ⟨0, 0⟩ ≤ 3 ∧
    c4loc ∉ ((ClusteringAgent.clusterByProximity [c4loc]).take 0).flatMap
      ClusterGroup.locations ∧
    (c4loc ∈ c4cluster.locations ∧ c4loc ∈ c4cluster.locations) := by
  have hd : haversineDistance ⟨0, 0⟩ ⟨0, 0⟩ ≤ 3 := by
    rw [haversine_self]; norm_num
  have hc : (ClusteringAgent.clusterByProximity [c4loc])[0]? = some c4cluster := rfl
  have hpe : c4loc ∉ ((ClusteringAgent.clusterByProximity [c4loc]).take 0).flatMap
      ClusterGroup.locations := by simp
  exact ⟨by decide, hc, rfl, rfl, List.mem_cons_self _ _, hd, hpe,
    cluster_same_radius_unassigned [c4loc] (by decide) 0 c4cluster hc c4loc c4loc c4loc
      ⟨0, 0⟩ ⟨0, 0⟩ ⟨0, 0⟩ rfl rfl (List.mem_cons_self _ _) rfl (List.mem_cons_self _ _) rfl
      hd hd hpe hpe⟩

/-- **C5 counterexample.** The claim as stated — any two POIs within 3 km of a
cluster's seed end up in one common cluster — is false: for the equatorial
configuration `c5pois`, B (0.026°E) is gathered into A's cluster, C (0.047°E)
seeds its own cluster, and although both B and C are within 3 km of the
seed C, no cluster of the output contains them both. -/
theorem cluster_same_radius_counterexample : ¬ sameClusterClaim := by
  intro hclaim
  have hAB : haversineDistance ⟨0, 0⟩ ⟨0, 0.026⟩ ≤ 3 := by
    rw [haversine_equator 0 0.026 (by norm_num) (by norm_num)]
    nlinarith [Real.pi_lt_d2, Real.pi_pos]
  have hAC : ¬ (haversineDistance ⟨0, 0⟩ ⟨0, 0.047⟩ ≤ 3) := by
    rw [haversine_equator 0 0.047 (by norm_num) (by norm_num)]
    intro hcon
    nlinarith [Real.pi_gt_three]
  have hCB : haversineDistance ⟨0, 0.047⟩ ⟨0, 0.026⟩ ≤ 3 := by
    rw [haversine_comm, haversine_equator 0.026 0.047 (by norm_num) (by norm_num)]
    nlinarith [Real.pi_lt_d2, Real.pi_pos]
  have hCC : haversineDistance ⟨0, 0.047⟩ ⟨0, 0.047⟩ ≤ 3 := by
    rw [haversine_self]
    norm_num
  have hout : ClusteringAgent.clusterByProximity c5pois = [c5cluster1, c5cluster2] := by
    simp [ClusteringAgent.clusterByProximity, ClusteringAgent.clusterLoop,
      ClusteringAgent.gatherNearby, c5pois, c5A, c5B, c5C, mkLoc, hAB, hAC,
      c5cluster1, c5cluster2]
  obtain ⟨c2, hc2mem, hBmem, hCmem⟩ := hclaim c5pois c5cluster2 c5C c5B c5C
    ⟨0, 0.047⟩ ⟨0, 0.026⟩ ⟨0, 0.047⟩
    (by rw [hout]; simp) rfl rfl (by simp [c5pois]) rfl (by simp [c5pois]) rfl hCB hCC
  rw [hout] at hc2mem
  rcases List.mem_cons.mp hc2mem with rfl | hc2mem2
  · have hCloc : c5C ∈ [c5A, c5B] := hCmem
    rcases List.mem_cons.mp hCloc with heq | hCloc2
    · exact absurd (congrArg Location.id heq) (by simp [c5A, c5C, mkLoc])
    · rcases List.mem_cons.mp hCloc2 with heq | h3
      · exact absurd (congrArg Location.id heq) (by simp [c5B, c5C, mkLoc])
      · exact absurd h3 (List.not_mem_nil _)
  · rcases List.mem_cons.mp hc2mem2 with rfl | h2
    · have hBloc : c5B ∈ [c5C] := hBmem
      rcases List.mem_cons.mp hBloc with heq | h3
      · exact absurd (congrArg Location.id heq) (by simp [c5B, c5C, mkLoc])
      · exact absurd h3 (List.not_mem_nil _)
    · exact absurd h2 (List.not_mem_nil _)

end Compass
